import Mathlib

/-!
# The ModSecurity gatekeeper of `modsecurity.go`

A shallow embedding of the decision engine of the Traefik ModSecurity plugin:
the jail ledger (`recordOffense`, `isClientInJail`, `releaseFromJail`), the
health breaker (`markUnhealthy`) and the request entry point `ServeHTTP`.

Modelling conventions.

* An instant (`time.Time`, always obtained from `time.Now()`) is an `Int`:
  a number of nanoseconds on the process clock.  A `time.Duration` is an
  `Int` too, an `int64` number of nanoseconds, so
  `time.Duration(n) * time.Second` wraps and `Time.Sub` saturates, as in Go.
* A Go map with string keys is an association list read through
  `GoMap.lookup`; `GoMap.assign` and `GoMap.delete` keep at most one binding
  per key they touch.
* `jailMutex` is tracked as the number of read holds and a write hold.  The
  model follows one execution context; an acquisition that cannot be granted
  is the result `none` (the goroutine is parked).
* `unhealthyWafMutex` is taken and released inside `markUnhealthy` and inside
  the timer callback only, never nested, and is not tracked.
* The logger output is part of the state (`State.log`), without the
  timestamp prefix of `log.LstdFlags`.
-/

namespace Modsecurity

/-! ## Time -/

/-- The largest `time.Duration`, `1<<63 - 1`. -/
def maxDuration : Int := 9223372036854775807

/-- The smallest `time.Duration`, `-1 << 63`. -/
def minDuration : Int := -9223372036854775808

/-- The constant `time.Second`, in nanoseconds. -/
def Second : Int := 1000000000

/-- Two-complement reduction of an integer to the `int64` range. -/
def wrapInt64 (x : Int) : Int :=
  (x + 9223372036854775808) % 18446744073709551616 - 9223372036854775808

/-- The expression `time.Duration(secs) * time.Second` (an `int64` product). -/
def secondsToDuration (secs : Int) : Int :=
  wrapInt64 (secs * 1000000000)

/-- The method `t.Sub(u)`: the difference `t - u`, saturated to the range of
`time.Duration`. -/
def Time.Sub (t u : Int) : Int :=
  if t - u > maxDuration then maxDuration
  else if t - u < minDuration then minDuration
  else t - u

/-- The method `t.Add(d)`. -/
def Time.Add (t : Int) (d : Int) : Int := t + d

/-- The method `t.Before(u)`. -/
def Time.Before (t u : Int) : Bool := decide (t < u)

/-! ## Go maps with string keys -/

/-- A Go `map[string]α`: an association list, read through `GoMap.lookup`. -/
abbrev GoMap (α : Type) := List (String × α)

/-- The two-valued index expression `v, exists := m[k]`. -/
def GoMap.lookup {α : Type} : GoMap α → String → Option α
  | [], _ => none
  | (k1, v) :: rest, k => if k1 = k then some v else GoMap.lookup rest k

/-- The builtin `delete(m, k)`. -/
def GoMap.delete {α : Type} (m : GoMap α) (k : String) : GoMap α :=
  m.filter (fun e => decide (e.1 ≠ k))

/-- The assignment `m[k] = v`. -/
def GoMap.assign {α : Type} (m : GoMap α) (k : String) (v : α) : GoMap α :=
  (k, v) :: GoMap.delete m k

/-- The one-valued index expression `m[k]` on a map of slices: the nil slice
when the key is absent. -/
def GoMap.index {α : Type} (m : GoMap (List α)) (k : String) : List α :=
  (GoMap.lookup m k).getD []

/-! ## The reader/writer mutex `jailMutex` -/

/-- The holds on a `sync.RWMutex`. -/
structure RWMutex where
  readers : Nat
  writer : Bool
deriving DecidableEq, Repr

/-- A mutex nobody holds. -/
def RWMutex.unlocked : RWMutex := { readers := 0, writer := false }

/-- The method `RLock`: granted unless a writer holds the mutex. -/
def RWMutex.RLock (m : RWMutex) : Option RWMutex :=
  if m.writer then none else some { m with readers := m.readers + 1 }

/-- The method `RUnlock`, called after a granted `RLock`. -/
def RWMutex.RUnlock (m : RWMutex) : RWMutex :=
  { m with readers := m.readers - 1 }

/-- The method `Lock`: granted only when there is no reader and no writer. -/
def RWMutex.Lock (m : RWMutex) : Option RWMutex :=
  if m.readers = 0 ∧ m.writer = false then some { m with writer := true } else none

/-- The method `Unlock`, called after a granted `Lock`. -/
def RWMutex.Unlock (m : RWMutex) : RWMutex :=
  { m with writer := false }

/-! ## Configuration and state -/

/-- The configuration fields of the `Modsecurity` struct (set once by `New`). -/
structure Config where
  modSecurityUrl : String
  jailEnabled : Bool
  badRequestsThresholdCount : Int
  badRequestsThresholdPeriodSecs : Int
  unhealthyWafBackOffPeriodSecs : Int
  jailTimeDurationSecs : Int
deriving DecidableEq, Repr

/-- The duration `time.Duration(a.badRequestsThresholdPeriodSecs)*time.Second`. -/
def Config.thresholdPeriod (cfg : Config) : Int :=
  secondsToDuration cfg.badRequestsThresholdPeriodSecs

/-- The duration `time.Duration(a.jailTimeDurationSecs) * time.Second`. -/
def Config.jailTime (cfg : Config) : Int :=
  secondsToDuration cfg.jailTimeDurationSecs

/-- The mutable fields of the `Modsecurity` struct, the pending breaker reset
timers (by due time) and the logger output. -/
structure State where
  unhealthyWaf : Bool
  resetTimers : List Int
  jail : GoMap (List Int)
  jailRelease : GoMap Int
  jailMutex : RWMutex
  log : List String
deriving DecidableEq, Repr

/-- The call `a.logger.Printf(...)` with the formatted message `msg`. -/
def State.logPrintf (s : State) (msg : String) : State :=
  { s with log := s.log ++ [msg] }

/-! ## The jail ledger -/

/-- The function `releaseFromJail`. -/
def releaseFromJail (clientIP : String) (s : State) : Option State :=
  match s.jailMutex.Lock with
  | none => none
  | some m =>
    let s1 : State := { s with jailMutex := m }
    let s2 : State := { s1 with jail := GoMap.delete s1.jail clientIP }
    let s3 : State := { s2 with jailRelease := GoMap.delete s2.jailRelease clientIP }
    let s4 := s3.logPrintf ("client " ++ clientIP ++ " released from jail")
    some { s4 with jailMutex := s4.jailMutex.Unlock }

/-- The function `isClientInJail`; `now` is the reading of `time.Now()`. -/
def isClientInJail (now : Int) (clientIP : String) (s : State) : Option (Bool × State) :=
  match GoMap.lookup s.jailRelease clientIP with
  | some releaseTime =>
    if Time.Before now releaseTime then some (true, s)
    else
      match releaseFromJail clientIP s with
      | none => none
      | some s1 => some (false, s1)
  | none => some (false, s)

/-- The pruning loop of `recordOffense`: the offenses not older than the
threshold period. -/
def pruneOffenses (cfg : Config) (now : Int) (offenses : List Int) : List Int :=
  offenses.filter (fun offense => decide (Time.Sub now offense ≤ cfg.thresholdPeriod))

/-- The function `recordOffense`; `now` is the reading of `time.Now()`. -/
def recordOffense (cfg : Config) (now : Int) (clientIP : String) (s : State) : Option State :=
  match s.jailMutex.Lock with
  | none => none
  | some m =>
    let s1 : State := { s with jailMutex := m }
    let s2 : State :=
      match GoMap.lookup s1.jail clientIP with
      | some offenses =>
        { s1 with jail := GoMap.assign s1.jail clientIP (pruneOffenses cfg now offenses) }
      | none => s1
    let s3 : State :=
      { s2 with jail := GoMap.assign s2.jail clientIP (GoMap.index s2.jail clientIP ++ [now]) }
    let s4 : State :=
      if ((GoMap.index s3.jail clientIP).length : Int) ≥ cfg.badRequestsThresholdCount then
        let s3a := s3.logPrintf ("client " ++ clientIP ++ " reached threshold, putting in jail")
        { s3a with jailRelease := GoMap.assign s3a.jailRelease clientIP (Time.Add now cfg.jailTime) }
      else s3
    some { s4 with jailMutex := s4.jailMutex.Unlock }

/-- A run of `recordOffense` calls for one client, one at each listed time. -/
def recordOffenses (cfg : Config) (clientIP : String) : List Int → State → Option State
  | [], s => some s
  | t :: ts, s =>
    match recordOffense cfg t clientIP s with
    | none => none
    | some s1 => recordOffenses cfg clientIP ts s1

/-! ## The health breaker -/

/-- The function `markUnhealthy`; `now` is the instant at which
`time.AfterFunc` starts the reset timer. -/
def markUnhealthy (cfg : Config) (now : Int) (s : State) : State :=
  if cfg.unhealthyWafBackOffPeriodSecs = 0 then s
  else if !s.unhealthyWaf then
    let s1 : State := { s with unhealthyWaf := true }
    let back := cfg.unhealthyWafBackOffPeriodSecs
    let s2 := s1.logPrintf ("marking modsec as unhealthy for " ++ toString back ++ "s")
    { s2 with resetTimers := s2.resetTimers ++ [Time.Add now (secondsToDuration back)] }
  else s

/-- The callback handed to `time.AfterFunc`, run when the timer due at `due`
fires. -/
def resetTimerFire (due : Int) (s : State) : State :=
  let s1 : State := { s with resetTimers := s.resetTimers.erase due }
  let s2 : State := { s1 with unhealthyWaf := false }
  s2.logPrintf "modsec unhealthy backoff expired"

/-! ## Requests, responses and the observable trace -/

/-- A sequence of bytes. -/
abbrev Bytes := List Nat

/-- The bytes of an ASCII string literal. -/
def stringBytes (s : String) : Bytes := s.toList.map Char.toNat

/-- A request body as an `io.ReadCloser`: the bytes not yet read, and the
error the reader reports in place of the end of the stream, if any. -/
structure Body where
  unread : Bytes
  failure : Option String
deriving DecidableEq, Repr

/-- The call `io.ReadAll(b)`: the bytes (or the error), and the drained reader. -/
def ioReadAll (b : Body) : Except String Bytes × Body :=
  match b.failure with
  | some e => (Except.error e, { b with unread := [] })
  | none => (Except.ok b.unread, { b with unread := [] })

/-- The reader `io.NopCloser(bytes.NewReader(body))`. -/
def nopCloserReader (body : Bytes) : Body := { unread := body, failure := none }

/-- The fields of `*http.Request` that `ServeHTTP` reads or writes. -/
structure Request where
  method : String
  requestURI : String
  remoteAddr : String
  header : GoMap (List String)
  body : Body
deriving DecidableEq, Repr

/-- The request built by `http.NewRequest` for the inspection service. -/
structure ProxyRequest where
  method : String
  url : String
  header : GoMap (List String)
  body : Bytes
deriving DecidableEq, Repr

/-- The fields of `*http.Response` that `ServeHTTP` reads. -/
structure Response where
  statusCode : Int
  header : GoMap (List String)
  body : Bytes
deriving DecidableEq, Repr

/-- What `ServeHTTP` does to its collaborators, in program order: calls of the
backend handler, of the inspection service, reads of the request body, and the
operations on the `http.ResponseWriter`.  The events `markUnhealthy` and
`recordOffense` record the calls of these two methods. -/
inductive Event where
  | nextServeHTTP (req : Request)
  | httpClientDo (proxyReq : ProxyRequest)
  | ioReadAll
  | headerSet (key value : String)
  | headerAdd (key value : String)
  | writeHeader (statusCode : Int)
  | write (data : Bytes)
  | markUnhealthy
  | recordOffense (clientIP : String)
deriving DecidableEq, Repr

/-- What the surroundings of one `ServeHTTP` call supply: the clock reading
taken by `isClientInJail`, the clock reading once `httpClient.Do` has returned
(taken by `recordOffense` and by `time.AfterFunc`), the error of
`http.NewRequest` if it rejects the method or URL, and the result of
`httpClient.Do`. -/
structure Env where
  tJailCheck : Int
  tVerdict : Int
  newRequestErr : Option String
  doResult : Except String Response

/-- The result of one `ServeHTTP` call: the state it leaves, what it did, and
whether it returned (`false`: parked for ever on `jailMutex`). -/
structure Outcome where
  state : State
  trace : List Event
  returned : Bool
deriving DecidableEq, Repr

/-- The function `http.Error(rw, msg, code)` of the standard library. -/
def httpError (msg : String) (code : Int) : List Event :=
  [Event.headerSet "Content-Type" "text/plain; charset=utf-8",
   Event.headerSet "X-Content-Type-Options" "nosniff",
   Event.writeHeader code,
   Event.write (stringBytes (msg ++ "\n"))]

/-- The constant `http.StatusTooManyRequests`. -/
def StatusTooManyRequests : Int := 429

/-- The constant `http.StatusBadGateway`. -/
def StatusBadGateway : Int := 502

/-- The constant `http.StatusForbidden`. -/
def StatusForbidden : Int := 403

/-- The function `isWebsocket`. -/
def isWebsocket (req : Request) : Bool :=
  (GoMap.index req.header "Upgrade").any (fun header => decide (header = "websocket"))

/-- The function `forwardResponse`. -/
def forwardResponse (resp : Response) : List Event :=
  (resp.header.flatMap (fun kv => kv.2.map (fun v => Event.headerAdd kv.1 v)))
    ++ [Event.writeHeader resp.statusCode, Event.write resp.body]

/-- The loop of `ServeHTTP` that copies the request headers into a fresh map. -/
def copyHeader (h : GoMap (List String)) : GoMap (List String) :=
  h.foldl (fun acc kv => GoMap.assign acc kv.1 kv.2) []

/-- The part of `ServeHTTP` from the breaker check to the end. -/
def ServeHTTP.afterJailCheck (cfg : Config) (env : Env) (req : Request) (s : State) : Outcome :=
  let clientIP := req.remoteAddr
  -- breaker check
  if s.unhealthyWaf then
    { state := s, trace := [Event.nextServeHTTP req], returned := true }
  else
    -- buffer body
    match ioReadAll req.body with
    | (Except.error e, _) =>
      { state := s.logPrintf ("fail to read incoming request: " ++ e),
        trace := Event.ioReadAll :: httpError "" StatusBadGateway,
        returned := true }
    | (Except.ok body, _) =>
      let req1 : Request := { req with body := nopCloserReader body }
      let url := cfg.modSecurityUrl ++ req1.requestURI
      match env.newRequestErr with
      | some e =>
        { state := s.logPrintf ("fail to prepare forwarded request: " ++ e),
          trace := Event.ioReadAll :: httpError "" StatusBadGateway,
          returned := true }
      | none =>
        let proxyReq : ProxyRequest :=
          { method := req1.method, url := url, header := copyHeader req1.header, body := body }
        match env.doResult with
        | Except.error _ =>
          { state := markUnhealthy cfg env.tVerdict s,
            trace := [Event.ioReadAll, Event.httpClientDo proxyReq, Event.markUnhealthy,
                      Event.nextServeHTTP req1],
            returned := true }
        | Except.ok resp =>
          let s1 := if resp.statusCode ≥ 500 then markUnhealthy cfg env.tVerdict s else s
          let tr1 := [Event.ioReadAll, Event.httpClientDo proxyReq]
            ++ (if resp.statusCode ≥ 500 then [Event.markUnhealthy] else [])
          if resp.statusCode ≥ 400 then
            if resp.statusCode = StatusForbidden ∧ cfg.jailEnabled = true then
              match recordOffense cfg env.tVerdict clientIP s1 with
              | none =>
                { state := s1, trace := tr1 ++ [Event.recordOffense clientIP], returned := false }
              | some s2 =>
                { state := s2,
                  trace := tr1 ++ [Event.recordOffense clientIP] ++ forwardResponse resp,
                  returned := true }
            else
              { state := s1, trace := tr1 ++ forwardResponse resp, returned := true }
          else
            { state := s1, trace := tr1 ++ [Event.nextServeHTTP req1], returned := true }

/-- The method `ServeHTTP`. -/
def ServeHTTP (cfg : Config) (env : Env) (req : Request) (s : State) : Outcome :=
  if isWebsocket req then
    { state := s, trace := [Event.nextServeHTTP req], returned := true }
  else
    let clientIP := req.remoteAddr
    -- jail check
    if cfg.jailEnabled then
      match s.jailMutex.RLock with
      | none => { state := s, trace := [], returned := false }
      | some m =>
        let s0 : State := { s with jailMutex := m }
        match isClientInJail env.tJailCheck clientIP s0 with
        | none => { state := s0, trace := [], returned := false }
        | some (true, s1) =>
          let s2 : State := { s1 with jailMutex := s1.jailMutex.RUnlock }
          { state := s2.logPrintf ("client " ++ clientIP ++ " is jailed"),
            trace := httpError "Too Many Requests" StatusTooManyRequests,
            returned := true }
        | some (false, s1) =>
          let s2 : State := { s1 with jailMutex := s1.jailMutex.RUnlock }
          ServeHTTP.afterJailCheck cfg env req s2
    else
      ServeHTTP.afterJailCheck cfg env req s

/-! ## Observations on a trace -/

/-- The requests handed to the backend handler `a.next`, in order. -/
def backendCalls (tr : List Event) : List Request :=
  tr.filterMap (fun e => match e with
    | Event.nextServeHTTP r => some r
    | _ => none)

/-- The requests sent to the inspection service, in order. -/
def inspectionCalls (tr : List Event) : List ProxyRequest :=
  tr.filterMap (fun e => match e with
    | Event.httpClientDo p => some p
    | _ => none)

/-- The status codes passed to `rw.WriteHeader`, in order. -/
def statusesWritten (tr : List Event) : List Int :=
  tr.filterMap (fun e => match e with
    | Event.writeHeader c => some c
    | _ => none)

/-- The chunks of response body written to the caller, in order. -/
def bodyChunks (tr : List Event) : List Bytes :=
  tr.filterMap (fun e => match e with
    | Event.write d => some d
    | _ => none)

/-- The bytes written to the caller as response body. -/
def bodyWritten (tr : List Event) : Bytes :=
  (bodyChunks tr).foldr (fun d acc => d ++ acc) []

/-- The header values added to or set on the response, in order. -/
def headersWritten (tr : List Event) : List (String × String) :=
  tr.filterMap (fun e => match e with
    | Event.headerAdd k v => some (k, v)
    | Event.headerSet k v => some (k, v)
    | _ => none)

/-- The number of reads of the request body. -/
def bodyReads (tr : List Event) : Nat := tr.count Event.ioReadAll

/-- The clients for which `recordOffense` was called, in order. -/
def offenseCalls (tr : List Event) : List String :=
  tr.filterMap (fun e => match e with
    | Event.recordOffense c => some c
    | _ => none)

/-- The number of calls of `markUnhealthy`. -/
def markUnhealthyCalls (tr : List Event) : Nat := tr.count Event.markUnhealthy

/-- The header values of a response, as the list of key and value pairs. -/
def Response.headerPairs (resp : Response) : List (String × String) :=
  resp.header.flatMap (fun kv => kv.2.map (fun v => (kv.1, v)))

/-- The request that `ServeHTTP` builds for the inspection service. -/
def proxyRequest (cfg : Config) (req : Request) : ProxyRequest :=
  { method := req.method, url := cfg.modSecurityUrl ++ req.requestURI,
    header := copyHeader req.header, body := req.body.unread }

/-- The jail ledger: the offense windows and the release timestamps. -/
def State.ledger (s : State) : GoMap (List Int) × GoMap Int := (s.jail, s.jailRelease)

/-! ## The initial state and a sample configuration -/

/-- The state of the struct that `New` returns: both maps empty, the breaker
healthy, no timer, the mutex not held. -/
def State.init : State :=
  { unhealthyWaf := false, resetTimers := [], jail := [], jailRelease := [],
    jailMutex := RWMutex.unlocked, log := [] }

/-- A configuration with the given jail settings, jailing enabled and the
breaker disabled. -/
def jailConfig (count periodSecs jailSecs : Int) : Config :=
  { modSecurityUrl := "http://waf", jailEnabled := true,
    badRequestsThresholdCount := count, badRequestsThresholdPeriodSecs := periodSecs,
    unhealthyWafBackOffPeriodSecs := 0, jailTimeDurationSecs := jailSecs }


/-- A bodiless `GET /` request from the given remote address. -/
def sampleRequest (remoteAddr : String) : Request :=
  { method := "GET", requestURI := "/", remoteAddr := remoteAddr,
    header := [("Accept", ["*/*"])], body := { unread := [], failure := none } }

/-- The response of the inspection service used in the scenarios. -/
def sampleResponse (statusCode : Int) : Response :=
  { statusCode := statusCode, header := [("Content-Type", ["text/html"])],
    body := stringBytes "denied" }

/-- Surroundings in which the whole request is handled at instant `t` and the
inspection service answers with the given status code. -/
def verdictEnv (t : Int) (statusCode : Int) : Env :=
  { tJailCheck := t, tVerdict := t, newRequestErr := none,
    doResult := Except.ok (sampleResponse statusCode) }

/-- The ledger of a client `x` with offenses at 0 s and 5 s and release at
35 s, as `ServeHTTP` sees it inside its jail check: with its own read hold on
`jailMutex`. -/
def readLockedJailedState : State :=
  { unhealthyWaf := false, resetTimers := [],
    jail := [("x", [0, 5000000000])], jailRelease := [("x", 35000000000)],
    jailMutex := { readers := 1, writer := false }, log := [] }

/-- The ledger of a client `x` with offenses at 0 s and 5 s and release at
35 s, with `jailMutex` not held. -/
def jailedState : State :=
  { readLockedJailedState with jailMutex := RWMutex.unlocked }

/-- A configuration with jailing off and a breaker back-off of 10 s. -/
def breakerConfig : Config :=
  { modSecurityUrl := "http://waf", jailEnabled := false,
    badRequestsThresholdCount := 25, badRequestsThresholdPeriodSecs := 600,
    unhealthyWafBackOffPeriodSecs := 10, jailTimeDurationSecs := 600 }

/-- Surroundings in which the call of the inspection service fails at
transport level at instant `t`. -/
def transportErrorEnv (t : Int) : Env :=
  { tJailCheck := t, tVerdict := t, newRequestErr := none,
    doResult := Except.error "connection refused" }

/-- A request from the given remote address asking for a websocket upgrade. -/
def websocketRequest (remoteAddr : String) : Request :=
  { sampleRequest remoteAddr with
    header := [("Connection", ["Upgrade"]), ("Upgrade", ["websocket"])] }

/-- The ledger of `jailedState` with the breaker unhealthy. -/
def jailedUnhealthyState : State :=
  { jailedState with unhealthyWaf := true, resetTimers := [10000000000] }

/-- The state after the two requests of client `x` at 0 s and 5 s that each
got a 403 verdict (threshold 2, window 60 s, jail 30 s). -/
def scenarioAfterOffenses : State :=
  (ServeHTTP (jailConfig 2 60 30) (verdictEnv 5000000000 403) (sampleRequest "x")
    (ServeHTTP (jailConfig 2 60 30) (verdictEnv 0 403) (sampleRequest "x")
      State.init).state).state

/-- The state after the request of client `x` at 20 s in that scenario. -/
def scenarioAfterBanResponse : State :=
  (ServeHTTP (jailConfig 2 60 30) (verdictEnv 20000000000 200) (sampleRequest "x")
    scenarioAfterOffenses).state

/-! ## Runs of operations -/

/-- An operation on the breaker: a call of `markUnhealthy` at a clock reading,
or the firing of the reset timer that is due at `due`. -/
inductive BreakerOp where
  | mark (now : Int)
  | fire (due : Int)
deriving DecidableEq, Repr

/-- One breaker operation, taken as atomic.  Only a pending timer can fire. -/
def BreakerOp.apply (cfg : Config) : BreakerOp → State → Option State
  | BreakerOp.mark now, s => some (markUnhealthy cfg now s)
  | BreakerOp.fire due, s =>
    if due ∈ s.resetTimers then some (resetTimerFire due s) else none

/-- A sequence of breaker operations, in order. -/
def runBreakerOps (cfg : Config) : List BreakerOp → State → Option State
  | [], s => some s
  | op :: ops, s =>
    match op.apply cfg s with
    | none => none
    | some s1 => runBreakerOps cfg ops s1

/-- What happens to the plugin at some clock reading: `ServeHTTP` handles a
request, or the reset timer due at `due` fires. -/
inductive Action where
  | serve (env : Env) (req : Request)
  | timerFire (due : Int)

/-- One action at clock reading `t`.  A timer fires only when it is pending and
its due time has come (`time.AfterFunc` never runs the callback early); a
request on which `ServeHTTP` does not return ends the run. -/
def Action.apply (cfg : Config) (t : Int) : Action → State → Option State
  | Action.serve env req, s =>
    if (ServeHTTP cfg env req s).returned then some (ServeHTTP cfg env req s).state else none
  | Action.timerFire due, s =>
    if due ∈ s.resetTimers ∧ due ≤ t then some (resetTimerFire due s) else none

/-- A sequence of actions, each with the clock reading at which it happens. -/
def runActions (cfg : Config) : List (Int × Action) → State → Option State
  | [], s => some s
  | a :: rest, s =>
    match a.2.apply cfg a.1 s with
    | none => none
    | some s1 => runActions cfg rest s1

/-- An operation on the jail ledger: a call of `recordOffense` or a call of
`isClientInJail`, for a client at a clock reading. -/
inductive LedgerOp where
  | record (now : Int) (clientIP : String)
  | check (now : Int) (clientIP : String)
deriving DecidableEq, Repr

/-- One ledger operation: the state it leaves, if it returns. -/
def LedgerOp.apply (cfg : Config) : LedgerOp → State → Option State
  | LedgerOp.record now c, s => recordOffense cfg now c s
  | LedgerOp.check now c, s => (isClientInJail now c s).map Prod.snd

/-- A sequence of ledger operations, in order. -/
def runLedgerOps (cfg : Config) : List LedgerOp → State → Option State
  | [], s => some s
  | op :: ops, s =>
    match op.apply cfg s with
    | none => none
    | some s1 => runLedgerOps cfg ops s1

/-- The jail check of `ServeHTTP`, from `a.jailMutex.RLock()` to the matching
`RUnlock`: `isClientInJail` called under the read lock of its caller.  This
is the only call site of `isClientInJail`. -/
def jailCheck (now : Int) (clientIP : String) (s : State) : Option (Bool × State) :=
  match s.jailMutex.RLock with
  | none => none
  | some m =>
    match isClientInJail now clientIP { s with jailMutex := m } with
    | none => none
    | some (v, s1) => some (v, { s1 with jailMutex := s1.jailMutex.RUnlock })

/-- One ledger operation as `ServeHTTP` performs it: `recordOffense` called
with no lock held by the caller, `isClientInJail` called inside the jail check,
under the read lock. -/
def LedgerOp.call (cfg : Config) : LedgerOp → State → Option State
  | LedgerOp.record now c, s => recordOffense cfg now c s
  | LedgerOp.check now c, s => (jailCheck now c s).map Prod.snd

/-- A sequence of ledger operations as `ServeHTTP` performs them, in order. -/
def runCalls (cfg : Config) : List LedgerOp → State → Option State
  | [], s => some s
  | op :: ops, s =>
    match op.call cfg s with
    | none => none
    | some s1 => runCalls cfg ops s1

/-- The keys of a map, each once. -/
def GoMap.keys {α : Type} (m : GoMap α) : List String := (m.map Prod.fst).dedup

/-- Whether `ServeHTTP` would answer the client with the ban response at
time `t`: the verdict of `isClientInJail`, if it returns. -/
def jailVerdict (t : Int) (clientIP : String) (s : State) : Option Bool :=
  (isClientInJail t clientIP s).map Prod.fst

/-! ## Construction -/

/-- The constant `time.Millisecond`, in nanoseconds. -/
def Millisecond : Int := 1000000

/-- The struct `Config` of the source: the plugin configuration. -/
structure PluginConfig where
  TimeoutMillis : Int
  DialTimeoutMillis : Int
  IdleConnTimeoutMillis : Int
  ModSecurityUrl : String
  JailEnabled : Bool
  BadRequestsThresholdCount : Int
  BadRequestsThresholdPeriodSecs : Int
  JailTimeDurationSecs : Int
  MaxConnsPerHost : Int
  MaxIdleConnsPerHost : Int
  UnhealthyWafBackOffPeriodSecs : Int
deriving DecidableEq, Repr

/-- The function `CreateConfig`. -/
def CreateConfig : PluginConfig :=
  { TimeoutMillis := 2000, DialTimeoutMillis := 0, IdleConnTimeoutMillis := 0,
    ModSecurityUrl := "", JailEnabled := false, BadRequestsThresholdCount := 25,
    BadRequestsThresholdPeriodSecs := 600, JailTimeDurationSecs := 600,
    MaxConnsPerHost := 4, MaxIdleConnsPerHost := 2, UnhealthyWafBackOffPeriodSecs := 0 }

/-- The settings of the `http.Client`, its transport and its dialer that `New`
builds (durations in nanoseconds). -/
structure HTTPClient where
  timeout : Int
  dialTimeout : Int
  dialKeepAlive : Int
  maxIdleConns : Int
  maxConnsPerHost : Int
  maxIdleConnsPerHost : Int
  idleConnTimeout : Int
  tlsHandshakeTimeout : Int
  expectContinueTimeout : Int
  forceAttemptHTTP2 : Bool
deriving DecidableEq, Repr

/-- The struct `Modsecurity` that `New` returns: its name, its configuration
fields, its HTTP client and its mutable fields. -/
structure Plugin where
  name : String
  config : Config
  httpClient : HTTPClient
  state : State
deriving DecidableEq, Repr

/-- The expression `time.Duration(ms) * time.Millisecond` (an `int64` product). -/
def millisToDuration (ms : Int) : Int := wrapInt64 (ms * 1000000)

/-- The function `New`. -/
def New (config : PluginConfig) (name : String) : Except String Plugin :=
  if config.ModSecurityUrl.utf8ByteSize = 0 then
    Except.error "modSecurityUrl cannot be empty"
  else
    -- whole-request timeout
    let timeout :=
      if config.TimeoutMillis = 0 then 2 * Second else millisToDuration config.TimeoutMillis
    -- dial timeout
    let dialTO :=
      if config.DialTimeoutMillis > 0 then millisToDuration config.DialTimeoutMillis
      else 30 * Second
    -- idle keep-alive TTL
    let idleTO :=
      if config.IdleConnTimeoutMillis > 0 then millisToDuration config.IdleConnTimeoutMillis
      else 90 * Second
    -- per-host idle-pool cap
    let perHost := if config.MaxIdleConnsPerHost > 0 then config.MaxIdleConnsPerHost else 2
    -- active-connection cap
    let active := if config.MaxConnsPerHost > 0 then config.MaxConnsPerHost else 4
    Except.ok
      { name := name,
        config :=
          { modSecurityUrl := config.ModSecurityUrl,
            jailEnabled := config.JailEnabled,
            badRequestsThresholdCount := config.BadRequestsThresholdCount,
            badRequestsThresholdPeriodSecs := config.BadRequestsThresholdPeriodSecs,
            unhealthyWafBackOffPeriodSecs := config.UnhealthyWafBackOffPeriodSecs,
            jailTimeDurationSecs := config.JailTimeDurationSecs },
        httpClient :=
          { timeout := timeout, dialTimeout := dialTO, dialKeepAlive := 30 * Second,
            maxIdleConns := 100, maxConnsPerHost := active, maxIdleConnsPerHost := perHost,
            idleConnTimeout := idleTO, tlsHandshakeTimeout := 10 * Second,
            expectContinueTimeout := 1 * Second, forceAttemptHTTP2 := true },
        state :=
          { unhealthyWaf := false, resetTimers := [], jail := [], jailRelease := [],
            jailMutex := RWMutex.unlocked, log := [] } }

/-! ## More sample inputs -/

/-- A configuration with jailing enabled (threshold 2, window 60 s, jail 30 s)
and a breaker back-off of 10 s. -/
def jailBreakerConfig : Config :=
  { jailConfig 2 60 30 with unhealthyWafBackOffPeriodSecs := 10 }

/-- A request like `sampleRequest` with the given values under the header key
`Upgrade`. -/
def upgradeRequest (remoteAddr : String) (values : List String) : Request :=
  { sampleRequest remoteAddr with header := [("Upgrade", values)] }

/-- A ledger in which client `c` has one offense at 0 s and no release
timestamp, and client `d` has the window and the lapsed release timestamp of
`jailedState`'s client. -/
def twoClientState : State :=
  { State.init with
    jail := [("c", [0]), ("d", [0, 5000000000])],
    jailRelease := [("d", 35000000000)] }

/-! ## Lemmas on time and maps -/

theorem thresholdPeriod_lt_max (cfg : Config) : cfg.thresholdPeriod < maxDuration := by
  unfold Config.thresholdPeriod secondsToDuration wrapInt64 maxDuration
  omega

theorem thresholdPeriod_ge_min (cfg : Config) : minDuration ≤ cfg.thresholdPeriod := by
  unfold Config.thresholdPeriod secondsToDuration wrapInt64 minDuration
  omega

/-- Saturation of `Time.Sub` never changes the comparison with the threshold
period. -/
theorem sub_le_thresholdPeriod_iff (cfg : Config) (now o : Int) :
    Time.Sub now o ≤ cfg.thresholdPeriod ↔ now - o ≤ cfg.thresholdPeriod := by
  have h1 := thresholdPeriod_lt_max cfg
  have h2 := thresholdPeriod_ge_min cfg
  unfold Time.Sub
  unfold maxDuration at *
  unfold minDuration at *
  split_ifs <;> omega

/-- A duration of whole seconds within the `int64` nanosecond range is not
changed by the wrap. -/
theorem secondsToDuration_eq (secs : Int)
    (hlo : -9223372036 ≤ secs) (hhi : secs ≤ 9223372036) :
    secondsToDuration secs = secs * 1000000000 := by
  unfold secondsToDuration wrapInt64
  omega

theorem GoMap.delete_cons {α : Type} (k1 : String) (v : α) (rest : GoMap α) (k : String) :
    GoMap.delete ((k1, v) :: rest) k =
      if k1 = k then GoMap.delete rest k else (k1, v) :: GoMap.delete rest k := by
  unfold GoMap.delete
  by_cases h : k1 = k
  · simp [List.filter_cons, h]
  · simp [List.filter_cons, h]

theorem GoMap.lookup_delete_self {α : Type} (m : GoMap α) (k : String) :
    GoMap.lookup (GoMap.delete m k) k = none := by
  induction m with
  | nil => rfl
  | cons e rest ih =>
    obtain ⟨k1, v⟩ := e
    rw [GoMap.delete_cons]
    by_cases h : k1 = k
    · rw [if_pos h]; exact ih
    · rw [if_neg h, GoMap.lookup, if_neg h]; exact ih

theorem GoMap.lookup_delete_ne {α : Type} (m : GoMap α) (k k2 : String) (hne : k2 ≠ k) :
    GoMap.lookup (GoMap.delete m k) k2 = GoMap.lookup m k2 := by
  induction m with
  | nil => rfl
  | cons e rest ih =>
    obtain ⟨k1, v⟩ := e
    rw [GoMap.delete_cons]
    by_cases h : k1 = k
    · have h2 : ¬ k1 = k2 := fun h3 => hne (h3.symm.trans h)
      rw [if_pos h, ih, GoMap.lookup, if_neg h2]
    · rw [if_neg h]
      by_cases h3 : k1 = k2
      · rw [GoMap.lookup, if_pos h3, GoMap.lookup, if_pos h3]
      · rw [GoMap.lookup, if_neg h3, GoMap.lookup, if_neg h3, ih]

theorem GoMap.lookup_assign_self {α : Type} (m : GoMap α) (k : String) (v : α) :
    GoMap.lookup (GoMap.assign m k v) k = some v := by
  simp [GoMap.assign, GoMap.lookup]

theorem GoMap.lookup_assign_ne {α : Type} (m : GoMap α) (k k2 : String) (v : α)
    (hne : k2 ≠ k) :
    GoMap.lookup (GoMap.assign m k v) k2 = GoMap.lookup m k2 := by
  have h : ¬ k = k2 := fun h => hne h.symm
  simp [GoMap.assign, GoMap.lookup, h, GoMap.lookup_delete_ne m k k2 hne]

theorem GoMap.index_assign_self {α : Type} (m : GoMap (List α)) (k : String) (v : List α) :
    GoMap.index (GoMap.assign m k v) k = v := by
  simp [GoMap.index, GoMap.lookup_assign_self]

theorem GoMap.assign_ne_self {α : Type} (m : GoMap α) (k : String) (v : α)
    (h : GoMap.lookup m k = none) : GoMap.assign m k v ≠ m := by
  intro heq
  rw [← heq, GoMap.lookup_assign_self] at h
  exact Option.noConfusion h

theorem pruneOffenses_eq_filter (cfg : Config) (now : Int) (w : List Int) :
    pruneOffenses cfg now w = w.filter (fun o => decide (now - o ≤ cfg.thresholdPeriod)) := by
  unfold pruneOffenses
  apply List.filter_congr
  intro o _
  simp only [sub_le_thresholdPeriod_iff]

theorem pruneOffenses_length_le (cfg : Config) (now : Int) (w : List Int) :
    (pruneOffenses cfg now w).length ≤ w.length := by
  unfold pruneOffenses
  exact List.length_filter_le _ _

theorem pruneOffenses_eq_self (cfg : Config) (now : Int) (w : List Int)
    (h : ∀ o ∈ w, now - o ≤ cfg.thresholdPeriod) : pruneOffenses cfg now w = w := by
  rw [pruneOffenses_eq_filter]
  apply List.filter_eq_self.mpr
  intro o ho
  simpa using h o ho

/-! ## What one `recordOffense` call does -/

/-- With `jailMutex` not held, `recordOffense` returns; the client's window
becomes the pruned window followed by `now`, and the release timestamp is
assigned exactly when the new window has reached the threshold. -/
theorem recordOffense_unlocked (cfg : Config) (now : Int) (c : String) (s : State)
    (hfree : s.jailMutex = RWMutex.unlocked) :
    ∃ s1, recordOffense cfg now c s = some s1 ∧
      s1.jailMutex = RWMutex.unlocked ∧
      s1.unhealthyWaf = s.unhealthyWaf ∧
      s1.resetTimers = s.resetTimers ∧
      GoMap.lookup s1.jail c = some (pruneOffenses cfg now (GoMap.index s.jail c) ++ [now]) ∧
      s1.jailRelease =
        (if (((pruneOffenses cfg now (GoMap.index s.jail c)).length + 1 : Nat) : Int)
            ≥ cfg.badRequestsThresholdCount
         then GoMap.assign s.jailRelease c (Time.Add now cfg.jailTime)
         else s.jailRelease) := by
  unfold recordOffense
  rw [hfree]
  simp only [RWMutex.Lock, RWMutex.unlocked, and_self, if_true]
  cases hl : GoMap.lookup s.jail c with
  | none =>
    simp only [GoMap.index, hl, Option.getD_none, GoMap.lookup_assign_self, Option.getD_some,
      List.nil_append, List.length_singleton, pruneOffenses, List.filter_nil, List.length_nil,
      Nat.zero_add]
    split_ifs <;> simp [RWMutex.Unlock, State.logPrintf, GoMap.lookup_assign_self]
  | some w =>
    simp only [GoMap.index, hl, Option.getD_some, GoMap.lookup_assign_self,
      List.length_append, List.length_singleton]
    split_ifs <;> simp [RWMutex.Unlock, State.logPrintf, GoMap.lookup_assign_self]

/-! ## Runs of `recordOffense` -/

theorem recordOffenses_append (cfg : Config) (c : String) (ts us : List Int) (s : State) :
    recordOffenses cfg c (ts ++ us) s =
      (recordOffenses cfg c ts s).bind (recordOffenses cfg c us) := by
  induction ts generalizing s with
  | nil => rfl
  | cons t ts ih =>
    simp only [List.cons_append, recordOffenses]
    cases recordOffense cfg t c s with
    | none => rfl
    | some s1 => exact ih s1

/-- As long as the window cannot reach the threshold, a run of offenses
returns and leaves the release timestamps as they were. -/
theorem recordOffenses_below_threshold (cfg : Config) (c : String) (ts : List Int) (s : State)
    (hfree : s.jailMutex = RWMutex.unlocked)
    (hlen : (((GoMap.index s.jail c).length + ts.length : Nat) : Int)
      < cfg.badRequestsThresholdCount) :
    ∃ s1, recordOffenses cfg c ts s = some s1 ∧ s1.jailMutex = RWMutex.unlocked ∧
      s1.jailRelease = s.jailRelease := by
  induction ts generalizing s with
  | nil => exact ⟨s, rfl, hfree, rfl⟩
  | cons t ts ih =>
    obtain ⟨s1, hrun, hfree1, _, _, hwin, hrel⟩ := recordOffense_unlocked cfg t c s hfree
    have hp := pruneOffenses_length_le cfg t (GoMap.index s.jail c)
    have hidx : GoMap.index s1.jail c = pruneOffenses cfg t (GoMap.index s.jail c) ++ [t] := by
      simp [GoMap.index, hwin]
    simp only [List.length_cons] at hlen
    have hlen1 : (((GoMap.index s1.jail c).length + ts.length : Nat) : Int)
        < cfg.badRequestsThresholdCount := by
      rw [hidx, List.length_append, List.length_singleton]
      omega
    obtain ⟨s2, hrun2, hfree2, hrel2⟩ := ih s1 hfree1 hlen1
    refine ⟨s2, ?_, hfree2, ?_⟩
    · simp only [recordOffenses, hrun]
      exact hrun2
    · rw [hrel2, hrel, if_neg]
      omega

/-- When every offense is still inside the threshold period at each later
offense, nothing is pruned: the window grows by the whole run. -/
theorem recordOffenses_window (cfg : Config) (c : String) (ts : List Int) (s : State)
    (hfree : s.jailMutex = RWMutex.unlocked)
    (hpw : (GoMap.index s.jail c ++ ts).Pairwise (fun a b => b - a ≤ cfg.thresholdPeriod)) :
    ∃ s1, recordOffenses cfg c ts s = some s1 ∧ s1.jailMutex = RWMutex.unlocked ∧
      GoMap.index s1.jail c = GoMap.index s.jail c ++ ts := by
  induction ts generalizing s with
  | nil => exact ⟨s, rfl, hfree, by simp⟩
  | cons t ts ih =>
    obtain ⟨s1, hrun, hfree1, _, _, hwin, _⟩ := recordOffense_unlocked cfg t c s hfree
    have hkeep : pruneOffenses cfg t (GoMap.index s.jail c) = GoMap.index s.jail c := by
      apply pruneOffenses_eq_self
      intro o ho
      rw [List.pairwise_append] at hpw
      exact hpw.2.2 o ho t (List.mem_cons_self t ts)
    have hidx : GoMap.index s1.jail c = GoMap.index s.jail c ++ [t] := by
      show (GoMap.lookup s1.jail c).getD [] = _
      rw [hwin, hkeep]
      rfl
    have hpw1 : (GoMap.index s1.jail c ++ ts).Pairwise
        (fun a b => b - a ≤ cfg.thresholdPeriod) := by
      rw [hidx, List.append_assoc]
      exact hpw
    obtain ⟨s2, hrun2, hfree2, hidx2⟩ := ih s1 hfree1 hpw1
    refine ⟨s2, ?_, hfree2, ?_⟩
    · simp only [recordOffenses, hrun]
      exact hrun2
    · rw [hidx2, hidx, List.append_assoc]
      rfl

/-- In a non-decreasing run whose members all lie within the threshold period
of the last one, every member lies within the period of every later one. -/
theorem pairwise_within_period (cfg : Config) (ts : List Int) (tN : Int)
    (hsorted : (ts ++ [tN]).Pairwise (fun a b => a ≤ b))
    (hwin : ∀ t ∈ ts, tN - t ≤ cfg.thresholdPeriod) :
    ts.Pairwise (fun a b => b - a ≤ cfg.thresholdPeriod) := by
  rw [List.pairwise_append] at hsorted
  obtain ⟨hts, _, hlast⟩ := hsorted
  refine List.Pairwise.imp_of_mem ?_ hts
  intro a b ha hb _
  have h1 := hwin a ha
  have h2 := hlast b hb tN (List.mem_singleton_self tN)
  omega

/-- Statement C1: starting with no entry for the client and `jailMutex` not
held, after `N = badRequestsThresholdCount` calls of `recordOffense` (the list
`times` is not empty, so `N ≥ 1`) at non-decreasing times that all lie within the threshold period of the last one,
`isClientInJail` returns true at every time from the last offense up to (not
including) that time plus the jail duration; after only the first `N - 1` of
these calls it returns false. -/
theorem C1_threshold_offenses_jail (cfg : Config) (c : String) (s : State)
    (N : Nat) (times : List Int) (hne : times ≠ [])
    (hthr : cfg.badRequestsThresholdCount = (N : Int))
    (hlen : times.length = N)
    (hfree : s.jailMutex = RWMutex.unlocked)
    (hnoJail : GoMap.lookup s.jail c = none)
    (hnoRel : GoMap.lookup s.jailRelease c = none)
    (hsorted : times.Pairwise (fun a b => a ≤ b))
    (hwin : ∀ t ∈ times, times.getLast hne - t ≤ cfg.thresholdPeriod) :
    (∃ sN, recordOffenses cfg c times s = some sN ∧
      ∀ t, times.getLast hne ≤ t → t < times.getLast hne + cfg.jailTime →
        isClientInJail t c sN = some (true, sN)) ∧
    (∃ sP, recordOffenses cfg c times.dropLast s = some sP ∧
      ∀ t, isClientInJail t c sP = some (false, sP)) := by
  have hsplit : times.dropLast ++ [times.getLast hne] = times :=
    List.dropLast_append_getLast hne
  generalize times.getLast hne = tN at hsplit hwin
  generalize times.dropLast = ts at hsplit
  subst hsplit
  have hidx0 : GoMap.index s.jail c = [] := by simp [GoMap.index, hnoJail]
  simp only [List.length_append, List.length_singleton] at hlen
  -- the first N - 1 offenses stay below the threshold and are all retained
  have hbelow : (((GoMap.index s.jail c).length + ts.length : Nat) : Int)
      < cfg.badRequestsThresholdCount := by
    rw [hidx0, hthr]; simp only [List.length_nil]; omega
  obtain ⟨sP, hrunP, hfreeP, hrelP⟩ := recordOffenses_below_threshold cfg c ts s hfree hbelow
  have hpw : (GoMap.index s.jail c ++ ts).Pairwise
      (fun a b => b - a ≤ cfg.thresholdPeriod) := by
    rw [hidx0, List.nil_append]
    exact pairwise_within_period cfg ts tN hsorted
      (fun t ht => hwin t (List.mem_append_left _ ht))
  obtain ⟨sP2, hrunP2, _, hidxP⟩ := recordOffenses_window cfg c ts s hfree hpw
  have hsame : sP2 = sP := Option.some.inj (hrunP2.symm.trans hrunP)
  subst hsame
  rw [hidx0, List.nil_append] at hidxP
  -- the N-th offense
  obtain ⟨sN, hrunN, _, _, _, _, hrelN⟩ := recordOffense_unlocked cfg tN c sP2 hfreeP
  have hkeep : pruneOffenses cfg tN (GoMap.index sP2.jail c) = ts := by
    rw [hidxP]
    exact pruneOffenses_eq_self cfg tN ts (fun t ht => hwin t (List.mem_append_left _ ht))
  rw [hkeep, if_pos (by rw [hthr]; omega)] at hrelN
  constructor
  · refine ⟨sN, ?_, ?_⟩
    · rw [recordOffenses_append, hrunP]
      simp only [Option.bind, recordOffenses, hrunN]
    · intro t _ hlt
      unfold isClientInJail
      rw [hrelN, GoMap.lookup_assign_self]
      have hb : Time.Before t (Time.Add tN cfg.jailTime) = true := by
        simp [Time.Before, Time.Add, hlt]
      simp only [hb, if_true]
  · refine ⟨sP2, hrunP, ?_⟩
    intro t
    unfold isClientInJail
    rw [hrelP, hnoRel]

/-- Statement C1 at threshold 2, window 60 s, jail 30 s, offenses at 0 s and 5 s. -/
theorem C1_threshold_offenses_jail_witness :
    (∃ sN, recordOffenses (jailConfig 2 60 30) "x" [0, 5000000000] State.init = some sN ∧
      ∀ t, 5000000000 ≤ t → t < 5000000000 + (jailConfig 2 60 30).jailTime →
        isClientInJail t "x" sN = some (true, sN)) ∧
    (∃ sP, recordOffenses (jailConfig 2 60 30) "x" [0] State.init = some sP ∧
      ∀ t, isClientInJail t "x" sP = some (false, sP)) :=
  C1_threshold_offenses_jail (jailConfig 2 60 30) "x" State.init 2 [0, 5000000000]
    (by decide) rfl rfl rfl rfl rfl (by decide) (by decide)

/-! ## Offenses outside the window -/

theorem pruneOffenses_append (cfg : Config) (now : Int) (w v : List Int) :
    pruneOffenses cfg now (w ++ v) = pruneOffenses cfg now w ++ pruneOffenses cfg now v := by
  unfold pruneOffenses
  exact List.filter_append _ _

/-- Pruning at an earlier time removes nothing that pruning at a later time
would keep. -/
theorem pruneOffenses_pruneOffenses (cfg : Config) (t now : Int) (w : List Int)
    (hle : t ≤ now) :
    pruneOffenses cfg now (pruneOffenses cfg t w) = pruneOffenses cfg now w := by
  rw [pruneOffenses_eq_filter, pruneOffenses_eq_filter, pruneOffenses_eq_filter,
    List.filter_filter]
  apply List.filter_congr
  intro o _
  by_cases h : now - o ≤ cfg.thresholdPeriod
  · have h2 : t - o ≤ cfg.thresholdPeriod := by omega
    simp [h, h2]
  · simp [h]

/-- After a run of offenses none of which is later than `now`, pruning the
window at `now` keeps exactly the offenses of the run (and of the window
before it) that are within the threshold period of `now`. -/
theorem recordOffenses_prune (cfg : Config) (c : String) (ts : List Int) (s : State)
    (now : Int) (hfree : s.jailMutex = RWMutex.unlocked) (hle : ∀ t ∈ ts, t ≤ now) :
    ∃ sP, recordOffenses cfg c ts s = some sP ∧ sP.jailMutex = RWMutex.unlocked ∧
      pruneOffenses cfg now (GoMap.index sP.jail c)
        = pruneOffenses cfg now (GoMap.index s.jail c ++ ts) := by
  induction ts generalizing s with
  | nil => exact ⟨s, rfl, hfree, by simp⟩
  | cons t ts ih =>
    obtain ⟨s1, hrun, hfree1, _, _, hwin, _⟩ := recordOffense_unlocked cfg t c s hfree
    have hidx : GoMap.index s1.jail c = pruneOffenses cfg t (GoMap.index s.jail c) ++ [t] := by
      show (GoMap.lookup s1.jail c).getD [] = _
      rw [hwin]
      rfl
    obtain ⟨s2, hrun2, hfree2, hpr⟩ :=
      ih s1 hfree1 (fun u hu => hle u (List.mem_cons_of_mem t hu))
    refine ⟨s2, ?_, hfree2, ?_⟩
    · simp only [recordOffenses, hrun]
      exact hrun2
    · rw [hpr, hidx]
      simp only [pruneOffenses_append,
        pruneOffenses_pruneOffenses cfg t now _ (hle t (List.mem_cons_self t ts))]
      rw [List.append_assoc, ← pruneOffenses_append cfg now [t] ts]
      rfl

/-- Statement C2: for a run of `recordOffense` calls for one client at
non-decreasing times, starting with no window for the client and `jailMutex`
not held, the call made at time `now` assigns the release timestamp
`now + jailTime` when the number of the client's offenses `t` with
`now - t ≤ thresholdPeriod`, the new one counted, is at least
`badRequestsThresholdCount`, and leaves the release timestamps untouched
otherwise. -/
theorem C2_release_iff_window_count (cfg : Config) (c : String) (s : State)
    (earlier : List Int) (now : Int)
    (hfree : s.jailMutex = RWMutex.unlocked)
    (hnoJail : GoMap.lookup s.jail c = none)
    (hsorted : (earlier ++ [now]).Pairwise (fun a b => a ≤ b)) :
    ∃ sP sN, recordOffenses cfg c earlier s = some sP ∧
      recordOffense cfg now c sP = some sN ∧
      recordOffenses cfg c (earlier ++ [now]) s = some sN ∧
      ((((earlier.filter (fun t => decide (now - t ≤ cfg.thresholdPeriod))).length + 1 : Nat)
            : Int) ≥ cfg.badRequestsThresholdCount →
          sN.jailRelease = GoMap.assign sP.jailRelease c (now + cfg.jailTime) ∧
          GoMap.lookup sN.jailRelease c = some (now + cfg.jailTime)) ∧
      (¬ (((earlier.filter (fun t => decide (now - t ≤ cfg.thresholdPeriod))).length + 1 : Nat)
            : Int) ≥ cfg.badRequestsThresholdCount →
          sN.jailRelease = sP.jailRelease) := by
  have hle : ∀ t ∈ earlier, t ≤ now := by
    intro t ht
    rw [List.pairwise_append] at hsorted
    exact hsorted.2.2 t ht now (List.mem_singleton_self now)
  obtain ⟨sP, hrunP, hfreeP, hpr⟩ := recordOffenses_prune cfg c earlier s now hfree hle
  obtain ⟨sN, hrunN, _, _, _, _, hrelN⟩ := recordOffense_unlocked cfg now c sP hfreeP
  have hidx0 : GoMap.index s.jail c = [] := by simp [GoMap.index, hnoJail]
  rw [hpr, hidx0, List.nil_append, pruneOffenses_eq_filter] at hrelN
  refine ⟨sP, sN, hrunP, hrunN, ?_, ?_, ?_⟩
  · rw [recordOffenses_append, hrunP]
    simp only [Option.bind, recordOffenses, hrunN]
  · intro h
    rw [if_pos h] at hrelN
    refine ⟨hrelN, ?_⟩
    rw [hrelN, GoMap.lookup_assign_self]
    rfl
  · intro h
    rw [if_neg h] at hrelN
    exact hrelN

/-- Statement C2 at threshold 3 and window 10 s: offenses at 0 s, 1 s and 11 s
leave the client with no release timestamp. -/
theorem C2_release_iff_window_count_witness :
    ∃ sN, recordOffenses (jailConfig 3 10 600) "x"
        [0, 1000000000, 11000000000] State.init = some sN ∧
      GoMap.lookup sN.jailRelease "x" = none := by
  obtain ⟨sP, sN, hP, _, hN, _, hno⟩ :=
    C2_release_iff_window_count (jailConfig 3 10 600) "x" State.init
      [0, 1000000000] 11000000000 rfl rfl (by decide)
  refine ⟨sN, hN, ?_⟩
  rw [hno (by decide)]
  have h2 : recordOffenses (jailConfig 3 10 600) "x" [0, 1000000000] State.init
      = some sP := hP
  obtain ⟨sQ, hQ, _, hrelQ⟩ :=
    recordOffenses_below_threshold (jailConfig 3 10 600) "x" [0, 1000000000] State.init
      rfl (by decide)
  rw [hQ] at h2
  rw [← Option.some.inj h2, hrelQ]
  rfl

/-! ## The three cases of `isClientInJail` -/

theorem isClientInJail_absent (now : Int) (c : String) (s : State)
    (h : GoMap.lookup s.jailRelease c = none) :
    isClientInJail now c s = some (false, s) := by
  unfold isClientInJail
  rw [h]

theorem isClientInJail_banned (now : Int) (c : String) (s : State) (r : Int)
    (h : GoMap.lookup s.jailRelease c = some r) (hlt : now < r) :
    isClientInJail now c s = some (true, s) := by
  unfold isClientInJail
  rw [h]
  simp [Time.Before, hlt]

/-- With `jailMutex` not held, the check of a lapsed release timestamp evicts
the client and returns false. -/
theorem isClientInJail_lapsed_unlocked (now : Int) (c : String) (s : State) (r : Int)
    (h : GoMap.lookup s.jailRelease c = some r) (hge : r ≤ now)
    (hfree : s.jailMutex = RWMutex.unlocked) :
    ∃ s1, isClientInJail now c s = some (false, s1) ∧
      s1.jail = GoMap.delete s.jail c ∧ s1.jailRelease = GoMap.delete s.jailRelease c ∧
      s1.jailMutex = RWMutex.unlocked ∧ s1.unhealthyWaf = s.unhealthyWaf ∧
      s1.resetTimers = s.resetTimers := by
  unfold isClientInJail
  rw [h]
  have hnb : Time.Before now r = false := by
    simp [Time.Before]; omega
  simp [hnb, releaseFromJail, hfree, RWMutex.Lock, RWMutex.unlocked, RWMutex.Unlock,
    State.logPrintf]

/-- With a read hold on `jailMutex`, the check of a lapsed release timestamp
never returns: `releaseFromJail` cannot take the write lock. -/
theorem isClientInJail_lapsed_readLocked (now : Int) (c : String) (s : State) (r : Int)
    (h : GoMap.lookup s.jailRelease c = some r) (hge : r ≤ now)
    (hheld : 0 < s.jailMutex.readers) :
    isClientInJail now c s = none := by
  unfold isClientInJail
  rw [h]
  have hnb : Time.Before now r = false := by
    simp [Time.Before]; omega
  have hr : ¬ s.jailMutex.readers = 0 := by omega
  simp [hnb, releaseFromJail, RWMutex.Lock, hr]

/-- Statement C3, the lapsed case as the program runs it: `ServeHTTP` calls
`isClientInJail` with its read hold on `jailMutex` (one reader); for client `x`
released at 35 s and checked at 40 s the call does not return, so it neither
returns false nor removes the entries. -/
theorem C3_lapsed_check_parks_under_read_lock :
    RWMutex.unlocked.RLock = some readLockedJailedState.jailMutex ∧
    GoMap.lookup readLockedJailedState.jailRelease "x" = some 35000000000 ∧
    isClientInJail 40000000000 "x" readLockedJailedState = none := by
  decide

/-! ## The structure of `ServeHTTP` -/

theorem RWMutex.RUnlock_RLock (m m1 : RWMutex) (h : m.RLock = some m1) : m1.RUnlock = m := by
  unfold RWMutex.RLock at h
  cases m with
  | mk readers writer =>
    cases writer with
    | true => simp at h
    | false =>
      simp at h
      subst h
      simp [RWMutex.RUnlock]

/-- The state inside the jail check of `ServeHTTP`: one more read hold. -/
theorem readHeld_RUnlock (s : State) :
    ({ s with jailMutex :=
        ({ readers := s.jailMutex.readers + 1, writer := s.jailMutex.writer } : RWMutex).RUnlock }
      : State) = s := by
  cases s with
  | mk u t j r m l =>
    cases m with
    | mk readers writer => simp [RWMutex.RUnlock]

/-- The jail check of `ServeHTTP` for a client with no release timestamp. -/
theorem ServeHTTP_jailCheck_absent (cfg : Config) (env : Env) (req : Request) (s : State)
    (hws : isWebsocket req = false) (hje : cfg.jailEnabled = true)
    (hw : s.jailMutex.writer = false)
    (hnone : GoMap.lookup s.jailRelease req.remoteAddr = none) :
    ServeHTTP cfg env req s = ServeHTTP.afterJailCheck cfg env req s := by
  have hrl : s.jailMutex.RLock
      = some { readers := s.jailMutex.readers + 1, writer := s.jailMutex.writer } := by
    simp [RWMutex.RLock, hw]
  have habs := isClientInJail_absent env.tJailCheck req.remoteAddr
    { s with jailMutex :=
        { readers := s.jailMutex.readers + 1, writer := s.jailMutex.writer } } hnone
  unfold ServeHTTP
  simp only [hws, hje, hrl, habs, Bool.false_eq_true, if_false, if_true]
  rw [readHeld_RUnlock]

/-- The jail check of `ServeHTTP` for a client whose release timestamp is in
the future. -/
theorem ServeHTTP_jailCheck_banned (cfg : Config) (env : Env) (req : Request) (s : State)
    (r : Int)
    (hws : isWebsocket req = false) (hje : cfg.jailEnabled = true)
    (hw : s.jailMutex.writer = false)
    (hrel : GoMap.lookup s.jailRelease req.remoteAddr = some r)
    (hlt : env.tJailCheck < r) :
    ServeHTTP cfg env req s =
      { state := s.logPrintf ("client " ++ req.remoteAddr ++ " is jailed"),
        trace := httpError "Too Many Requests" StatusTooManyRequests,
        returned := true } := by
  have hrl : s.jailMutex.RLock
      = some { readers := s.jailMutex.readers + 1, writer := s.jailMutex.writer } := by
    simp [RWMutex.RLock, hw]
  have hban := isClientInJail_banned env.tJailCheck req.remoteAddr
    { s with jailMutex :=
        { readers := s.jailMutex.readers + 1, writer := s.jailMutex.writer } } r hrel hlt
  unfold ServeHTTP
  simp only [hws, hje, hrl, hban, Bool.false_eq_true, if_false, if_true]
  rw [readHeld_RUnlock]

/-- The jail check of `ServeHTTP` for a client whose release timestamp has
lapsed: the call parks inside `releaseFromJail`, holding its read lock, before
anything else is done. -/
theorem ServeHTTP_jailCheck_lapsed (cfg : Config) (env : Env) (req : Request) (s : State)
    (r : Int)
    (hws : isWebsocket req = false) (hje : cfg.jailEnabled = true)
    (hw : s.jailMutex.writer = false)
    (hrel : GoMap.lookup s.jailRelease req.remoteAddr = some r)
    (hge : r ≤ env.tJailCheck) :
    ServeHTTP cfg env req s =
      { state := { s with jailMutex :=
          { readers := s.jailMutex.readers + 1, writer := s.jailMutex.writer } },
        trace := [], returned := false } := by
  have hrl : s.jailMutex.RLock
      = some { readers := s.jailMutex.readers + 1, writer := s.jailMutex.writer } := by
    simp [RWMutex.RLock, hw]
  have hpark := isClientInJail_lapsed_readLocked env.tJailCheck req.remoteAddr
    { s with jailMutex :=
        { readers := s.jailMutex.readers + 1, writer := s.jailMutex.writer } } r hrel hge
    (Nat.succ_pos _)
  unfold ServeHTTP
  simp only [hws, hje, hrl, hpark, Bool.false_eq_true, if_false, if_true]

/-- A request that is not an upgrade and passes the jail check (jailing off, or
no release timestamp and no writer on `jailMutex`) continues with the breaker
check in the state it arrived in. -/
theorem ServeHTTP_pass (cfg : Config) (env : Env) (req : Request) (s : State)
    (hws : isWebsocket req = false)
    (hjail : cfg.jailEnabled = false ∨
      (s.jailMutex.writer = false ∧ GoMap.lookup s.jailRelease req.remoteAddr = none)) :
    ServeHTTP cfg env req s = ServeHTTP.afterJailCheck cfg env req s := by
  cases hje : cfg.jailEnabled with
  | false =>
    unfold ServeHTTP
    simp only [hws, hje, Bool.false_eq_true, if_false]
  | true =>
    rcases hjail with h | ⟨hw, hnone⟩
    · rw [hje] at h; exact Bool.noConfusion h
    · exact ServeHTTP_jailCheck_absent cfg env req s hws hje hw hnone

/-- A request for which the inspection service is called is not an upgrade and
went through the part of `ServeHTTP` after the jail check in the state it
arrived in. -/
theorem ServeHTTP_inspected (cfg : Config) (env : Env) (req : Request) (s : State)
    (hcall : inspectionCalls (ServeHTTP cfg env req s).trace ≠ []) :
    isWebsocket req = false ∧
    ServeHTTP cfg env req s = ServeHTTP.afterJailCheck cfg env req s := by
  cases hws : isWebsocket req with
  | true =>
    exfalso
    apply hcall
    simp [ServeHTTP, hws, inspectionCalls]
  | false =>
    refine ⟨rfl, ?_⟩
    cases hje : cfg.jailEnabled with
    | false => exact ServeHTTP_pass cfg env req s hws (Or.inl hje)
    | true =>
      cases hw : s.jailMutex.writer with
      | true =>
        exfalso
        apply hcall
        simp [ServeHTTP, hws, hje, RWMutex.RLock, hw, inspectionCalls]
      | false =>
        cases hl : GoMap.lookup s.jailRelease req.remoteAddr with
        | none => exact ServeHTTP_pass cfg env req s hws (Or.inr ⟨hw, hl⟩)
        | some r =>
          exfalso
          apply hcall
          by_cases hlt : env.tJailCheck < r
          · rw [ServeHTTP_jailCheck_banned cfg env req s r hws hje hw hl hlt]
            rfl
          · rw [ServeHTTP_jailCheck_lapsed cfg env req s r hws hje hw hl (by omega)]
            rfl

/-! ## The part of `ServeHTTP` after the jail check -/

/-- A body that was read without error and then replaced by a fresh reader over
the same bytes is the body the request arrived with. -/
theorem restored_request (req : Request) (hb : req.body.failure = none) :
    ({ req with body := nopCloserReader req.body.unread } : Request) = req := by
  cases req with
  | mk m u a h body =>
    cases body with
    | mk unread failure =>
      simp only at hb
      subst hb
      rfl

theorem ioReadAll_ok (b : Body) (hb : b.failure = none) :
    ioReadAll b = (Except.ok b.unread, { b with unread := [] }) := by
  unfold ioReadAll
  rw [hb]

/-- The inspection service is called only with the breaker healthy, the body
read without error and the forwarded request built without error. -/
theorem afterJailCheck_inspected (cfg : Config) (env : Env) (req : Request) (s : State)
    (hcall : inspectionCalls (ServeHTTP.afterJailCheck cfg env req s).trace ≠ []) :
    s.unhealthyWaf = false ∧ req.body.failure = none ∧ env.newRequestErr = none := by
  cases hu : s.unhealthyWaf with
  | true =>
    exfalso; apply hcall
    simp [ServeHTTP.afterJailCheck, hu, inspectionCalls]
  | false =>
    cases hb : req.body.failure with
    | some e =>
      exfalso; apply hcall
      simp [ServeHTTP.afterJailCheck, hu, ioReadAll, hb, inspectionCalls, httpError]
    | none =>
      cases hn : env.newRequestErr with
      | some e =>
        exfalso; apply hcall
        simp [ServeHTTP.afterJailCheck, hu, ioReadAll, hb, hn, inspectionCalls, httpError]
      | none => exact ⟨rfl, rfl, rfl⟩

/-- The transport failure branch. -/
theorem afterJailCheck_transport_error (cfg : Config) (env : Env) (req : Request) (s : State)
    (e : String)
    (hu : s.unhealthyWaf = false) (hb : req.body.failure = none)
    (hn : env.newRequestErr = none) (hdo : env.doResult = Except.error e) :
    ServeHTTP.afterJailCheck cfg env req s =
      { state := markUnhealthy cfg env.tVerdict s,
        trace := [Event.ioReadAll, Event.httpClientDo (proxyRequest cfg req),
                  Event.markUnhealthy, Event.nextServeHTTP req],
        returned := true } := by
  unfold ServeHTTP.afterJailCheck
  simp only [hu, ioReadAll_ok req.body hb, hn, hdo, Bool.false_eq_true, if_false,
    restored_request req hb]
  rfl

/-- The branch taken when the inspection service answers. -/
theorem afterJailCheck_response (cfg : Config) (env : Env) (req : Request) (s : State)
    (resp : Response)
    (hu : s.unhealthyWaf = false) (hb : req.body.failure = none)
    (hn : env.newRequestErr = none) (hdo : env.doResult = Except.ok resp) :
    ServeHTTP.afterJailCheck cfg env req s =
      (let s1 := if resp.statusCode ≥ 500 then markUnhealthy cfg env.tVerdict s else s
       let tr1 := [Event.ioReadAll, Event.httpClientDo (proxyRequest cfg req)]
         ++ (if resp.statusCode ≥ 500 then [Event.markUnhealthy] else [])
       if resp.statusCode ≥ 400 then
         if resp.statusCode = StatusForbidden ∧ cfg.jailEnabled = true then
           match recordOffense cfg env.tVerdict req.remoteAddr s1 with
           | none =>
             { state := s1, trace := tr1 ++ [Event.recordOffense req.remoteAddr],
               returned := false }
           | some s2 =>
             { state := s2,
               trace := tr1 ++ [Event.recordOffense req.remoteAddr] ++ forwardResponse resp,
               returned := true }
         else
           { state := s1, trace := tr1 ++ forwardResponse resp, returned := true }
       else
         { state := s1, trace := tr1 ++ [Event.nextServeHTTP req], returned := true }) := by
  unfold ServeHTTP.afterJailCheck
  simp only [hu, ioReadAll_ok req.body hb, hn, hdo, Bool.false_eq_true, if_false,
    restored_request req hb]
  rfl

/-- The premises under which the inspection service is called: no upgrade, the
jail check passed, the breaker healthy, the body read and the forwarded request
built without error. -/
theorem ServeHTTP_calls_inspection (cfg : Config) (env : Env) (req : Request) (s : State)
    (hws : isWebsocket req = false)
    (hjail : cfg.jailEnabled = false ∨
      (s.jailMutex.writer = false ∧ GoMap.lookup s.jailRelease req.remoteAddr = none))
    (hu : s.unhealthyWaf = false) (hb : req.body.failure = none)
    (hn : env.newRequestErr = none) :
    inspectionCalls (ServeHTTP cfg env req s).trace ≠ [] := by
  rw [ServeHTTP_pass cfg env req s hws hjail]
  cases hdo : env.doResult with
  | error e =>
    rw [afterJailCheck_transport_error cfg env req s e hu hb hn hdo]
    exact List.cons_ne_nil _ _
  | ok resp =>
    rw [afterJailCheck_response cfg env req s resp hu hb hn hdo]
    simp only []
    split_ifs <;> first
      | exact List.cons_ne_nil _ _
      | (split <;> exact List.cons_ne_nil _ _)

/-! ## What `forwardResponse` writes -/

theorem headerAdds_filterMap_none {β : Type} (f : Event → Option β)
    (hf : ∀ k v, f (Event.headerAdd k v) = none) (h : GoMap (List String)) :
    (h.flatMap (fun kv => kv.2.map (fun v => Event.headerAdd kv.1 v))).filterMap f = [] := by
  rw [List.filterMap_eq_nil_iff]
  intro e he
  rw [List.mem_flatMap] at he
  obtain ⟨kv, _, hmem⟩ := he
  rw [List.mem_map] at hmem
  obtain ⟨v, _, rfl⟩ := hmem
  exact hf kv.1 v

theorem headersWritten_headerAdds (h : GoMap (List String)) :
    headersWritten (h.flatMap (fun kv => kv.2.map (fun v => Event.headerAdd kv.1 v)))
      = h.flatMap (fun kv => kv.2.map (fun v => (kv.1, v))) := by
  unfold headersWritten
  induction h with
  | nil => rfl
  | cons kv rest ih =>
    simp only [List.flatMap_cons, List.filterMap_append, ih]
    congr 1
    induction kv.2 with
    | nil => rfl
    | cons v vs ihv => simp only [List.map_cons, List.filterMap_cons, ihv]

theorem statusesWritten_forwardResponse (resp : Response) :
    statusesWritten (forwardResponse resp) = [resp.statusCode] := by
  unfold statusesWritten forwardResponse
  rw [List.filterMap_append, headerAdds_filterMap_none _ (fun _ _ => rfl)]
  rfl

theorem bodyWritten_forwardResponse (resp : Response) :
    bodyWritten (forwardResponse resp) = resp.body := by
  unfold bodyWritten bodyChunks forwardResponse
  rw [List.filterMap_append, headerAdds_filterMap_none _ (fun _ _ => rfl)]
  simp

theorem headersWritten_forwardResponse (resp : Response) :
    headersWritten (forwardResponse resp) = resp.headerPairs := by
  have h := headersWritten_headerAdds resp.header
  unfold headersWritten at h
  unfold headersWritten forwardResponse Response.headerPairs
  rw [List.filterMap_append, h]
  simp

theorem backendCalls_forwardResponse (resp : Response) :
    backendCalls (forwardResponse resp) = [] := by
  unfold backendCalls forwardResponse
  rw [List.filterMap_append, headerAdds_filterMap_none _ (fun _ _ => rfl)]
  rfl

theorem offenseCalls_forwardResponse (resp : Response) :
    offenseCalls (forwardResponse resp) = [] := by
  unfold offenseCalls forwardResponse
  rw [List.filterMap_append, headerAdds_filterMap_none _ (fun _ _ => rfl)]
  rfl

theorem mem_forwardResponse (resp : Response) (e : Event) (he : e ∈ forwardResponse resp) :
    (∃ k v, e = Event.headerAdd k v) ∨ e = Event.writeHeader resp.statusCode
      ∨ e = Event.write resp.body := by
  unfold forwardResponse at he
  rw [List.mem_append] at he
  rcases he with he | he
  · left
    rw [List.mem_flatMap] at he
    obtain ⟨kv, _, hmem⟩ := he
    rw [List.mem_map] at hmem
    obtain ⟨v, _, rfl⟩ := hmem
    exact ⟨kv.1, v, rfl⟩
  · right
    simpa using he

theorem markUnhealthyCalls_forwardResponse (resp : Response) :
    markUnhealthyCalls (forwardResponse resp) = 0 := by
  unfold markUnhealthyCalls
  apply List.count_eq_zero.mpr
  intro he
  rcases mem_forwardResponse resp _ he with ⟨k, v, h⟩ | h | h <;> exact Event.noConfusion h

theorem inspectionCalls_forwardResponse (resp : Response) :
    inspectionCalls (forwardResponse resp) = [] := by
  unfold inspectionCalls forwardResponse
  rw [List.filterMap_append, headerAdds_filterMap_none _ (fun _ _ => rfl)]
  rfl

theorem backendCalls_append (a b : List Event) :
    backendCalls (a ++ b) = backendCalls a ++ backendCalls b := by
  unfold backendCalls
  exact List.filterMap_append _ _ _

theorem inspectionCalls_append (a b : List Event) :
    inspectionCalls (a ++ b) = inspectionCalls a ++ inspectionCalls b := by
  unfold inspectionCalls
  exact List.filterMap_append _ _ _

theorem statusesWritten_append (a b : List Event) :
    statusesWritten (a ++ b) = statusesWritten a ++ statusesWritten b := by
  unfold statusesWritten
  exact List.filterMap_append _ _ _

theorem headersWritten_append (a b : List Event) :
    headersWritten (a ++ b) = headersWritten a ++ headersWritten b := by
  unfold headersWritten
  exact List.filterMap_append _ _ _

theorem offenseCalls_append (a b : List Event) :
    offenseCalls (a ++ b) = offenseCalls a ++ offenseCalls b := by
  unfold offenseCalls
  exact List.filterMap_append _ _ _

theorem bodyWritten_append (a b : List Event) :
    bodyWritten (a ++ b) = bodyWritten a ++ bodyWritten b := by
  unfold bodyWritten bodyChunks
  rw [List.filterMap_append]
  induction List.filterMap (fun e => match e with
    | Event.write d => some d
    | _ => none) a with
  | nil => rfl
  | cons d ds ih => simp only [List.cons_append, List.foldr_cons, ih, List.append_assoc]

theorem markUnhealthyCalls_append (a b : List Event) :
    markUnhealthyCalls (a ++ b) = markUnhealthyCalls a + markUnhealthyCalls b := by
  unfold markUnhealthyCalls
  exact List.count_append _ _ _

/-! ## The breaker leaves the ledger alone -/

theorem markUnhealthy_jail (cfg : Config) (now : Int) (s : State) :
    (markUnhealthy cfg now s).jail = s.jail ∧
    (markUnhealthy cfg now s).jailRelease = s.jailRelease ∧
    (markUnhealthy cfg now s).jailMutex = s.jailMutex := by
  unfold markUnhealthy
  split_ifs <;> exact ⟨rfl, rfl, rfl⟩

theorem markUnhealthy_ledger (cfg : Config) (now : Int) (s : State) :
    (markUnhealthy cfg now s).ledger = s.ledger := by
  unfold State.ledger
  rw [(markUnhealthy_jail cfg now s).1, (markUnhealthy_jail cfg now s).2.1]

/-! ## Verdicts of the inspection service -/

/-- Statement C4 fails: with the breaker healthy and client `x` unknown to the
ledger, a 500 answer of the inspection service is relayed to the caller and the
backend handler is not invoked. -/
theorem C4_upstream_5xx_not_failed_open :
    isWebsocket (sampleRequest "x") = false ∧
    GoMap.lookup State.init.jailRelease "x" = none ∧
    State.init.unhealthyWaf = false ∧
    (sampleRequest "x").body.failure = none ∧
    inspectionCalls (ServeHTTP breakerConfig (verdictEnv 0 500) (sampleRequest "x")
      State.init).trace ≠ [] ∧
    markUnhealthyCalls (ServeHTTP breakerConfig (verdictEnv 0 500) (sampleRequest "x")
      State.init).trace = 1 ∧
    backendCalls (ServeHTTP breakerConfig (verdictEnv 0 500) (sampleRequest "x")
      State.init).trace = [] ∧
    statusesWritten (ServeHTTP breakerConfig (verdictEnv 0 500) (sampleRequest "x")
      State.init).trace = [500] ∧
    bodyWritten (ServeHTTP breakerConfig (verdictEnv 0 500) (sampleRequest "x")
      State.init).trace = (sampleResponse 500).body := by
  decide

/-- Statement C4 as the code has it: when the inspection service is called and
answers with a status code of 500 or more, `ServeHTTP` calls `markUnhealthy`
once and then relays the status, headers and body of that answer to the caller;
the backend handler is not invoked, `recordOffense` is not called and the jail
ledger is unchanged. -/
theorem C4_upstream_5xx_marks_unhealthy_and_relays (cfg : Config) (env : Env)
    (req : Request) (s : State) (resp : Response)
    (hcall : inspectionCalls (ServeHTTP cfg env req s).trace ≠ [])
    (hdo : env.doResult = Except.ok resp)
    (h500 : resp.statusCode ≥ 500) :
    (ServeHTTP cfg env req s).returned = true ∧
    (ServeHTTP cfg env req s).trace =
      [Event.ioReadAll, Event.httpClientDo (proxyRequest cfg req), Event.markUnhealthy]
        ++ forwardResponse resp ∧
    (ServeHTTP cfg env req s).state = markUnhealthy cfg env.tVerdict s ∧
    markUnhealthyCalls (ServeHTTP cfg env req s).trace = 1 ∧
    backendCalls (ServeHTTP cfg env req s).trace = [] ∧
    statusesWritten (ServeHTTP cfg env req s).trace = [resp.statusCode] ∧
    headersWritten (ServeHTTP cfg env req s).trace = resp.headerPairs ∧
    bodyWritten (ServeHTTP cfg env req s).trace = resp.body ∧
    offenseCalls (ServeHTTP cfg env req s).trace = [] ∧
    (ServeHTTP cfg env req s).state.ledger = s.ledger := by
  obtain ⟨_, heq⟩ := ServeHTTP_inspected cfg env req s hcall
  rw [heq] at hcall
  obtain ⟨hu, hb, hn⟩ := afterJailCheck_inspected cfg env req s hcall
  have h400 : resp.statusCode ≥ 400 := by omega
  have h403 : ¬ (resp.statusCode = StatusForbidden ∧ cfg.jailEnabled = true) := by
    unfold StatusForbidden
    intro h
    omega
  have hout : ServeHTTP cfg env req s =
      { state := markUnhealthy cfg env.tVerdict s,
        trace := [Event.ioReadAll, Event.httpClientDo (proxyRequest cfg req),
                  Event.markUnhealthy] ++ forwardResponse resp,
        returned := true } := by
    rw [heq, afterJailCheck_response cfg env req s resp hu hb hn hdo]
    simp only [if_pos h500, if_pos h400, if_neg h403]
    rfl
  rw [hout]
  refine ⟨rfl, rfl, rfl, ?_, ?_, ?_, ?_, ?_, ?_, markUnhealthy_ledger cfg env.tVerdict s⟩
  · rw [markUnhealthyCalls_append, markUnhealthyCalls_forwardResponse]
    rfl
  · rw [backendCalls_append, backendCalls_forwardResponse]
    rfl
  · rw [statusesWritten_append, statusesWritten_forwardResponse]
    rfl
  · rw [headersWritten_append, headersWritten_forwardResponse]
    rfl
  · rw [bodyWritten_append, bodyWritten_forwardResponse]
    rfl
  · rw [offenseCalls_append, offenseCalls_forwardResponse]
    rfl

/-- Statement C4 as the code has it, at a 500 answer for client `x`. -/
theorem C4_upstream_5xx_marks_unhealthy_and_relays_witness :
    backendCalls (ServeHTTP breakerConfig (verdictEnv 0 500) (sampleRequest "x")
      State.init).trace = [] ∧
    statusesWritten (ServeHTTP breakerConfig (verdictEnv 0 500) (sampleRequest "x")
      State.init).trace = [500] :=
  have h := C4_upstream_5xx_marks_unhealthy_and_relays breakerConfig (verdictEnv 0 500)
    (sampleRequest "x") State.init (sampleResponse 500) (by decide) rfl (by decide)
  ⟨h.2.2.2.2.1, h.2.2.2.2.2.1⟩

/-- Statement C5: when the call of the inspection service is made (so the
request is not an upgrade, the client is not banned, the breaker is healthy and
the body was read) and fails at transport level, `ServeHTTP` calls
`markUnhealthy` once, hands the request as it arrived to the backend handler,
writes nothing to the caller itself and leaves the jail ledger unchanged. -/
theorem C5_transport_failure_fails_open (cfg : Config) (env : Env) (req : Request)
    (s : State) (e : String)
    (hcall : inspectionCalls (ServeHTTP cfg env req s).trace ≠ [])
    (hdo : env.doResult = Except.error e) :
    (ServeHTTP cfg env req s).returned = true ∧
    (ServeHTTP cfg env req s).trace =
      [Event.ioReadAll, Event.httpClientDo (proxyRequest cfg req), Event.markUnhealthy,
       Event.nextServeHTTP req] ∧
    (ServeHTTP cfg env req s).state = markUnhealthy cfg env.tVerdict s ∧
    markUnhealthyCalls (ServeHTTP cfg env req s).trace = 1 ∧
    backendCalls (ServeHTTP cfg env req s).trace = [req] ∧
    statusesWritten (ServeHTTP cfg env req s).trace = [] ∧
    headersWritten (ServeHTTP cfg env req s).trace = [] ∧
    bodyWritten (ServeHTTP cfg env req s).trace = [] ∧
    (ServeHTTP cfg env req s).state.ledger = s.ledger := by
  obtain ⟨_, heq⟩ := ServeHTTP_inspected cfg env req s hcall
  rw [heq] at hcall
  obtain ⟨hu, hb, hn⟩ := afterJailCheck_inspected cfg env req s hcall
  rw [heq, afterJailCheck_transport_error cfg env req s e hu hb hn hdo]
  exact ⟨rfl, rfl, rfl, rfl, rfl, rfl, rfl, rfl, markUnhealthy_ledger cfg env.tVerdict s⟩

/-- Statement C5 at a refused connection for client `x`. -/
theorem C5_transport_failure_fails_open_witness :
    backendCalls (ServeHTTP breakerConfig (transportErrorEnv 0) (sampleRequest "x")
      State.init).trace = [sampleRequest "x"] ∧
    statusesWritten (ServeHTTP breakerConfig (transportErrorEnv 0) (sampleRequest "x")
      State.init).trace = [] ∧
    (ServeHTTP breakerConfig (transportErrorEnv 0) (sampleRequest "x")
      State.init).state.ledger = State.init.ledger :=
  have h := C5_transport_failure_fails_open breakerConfig (transportErrorEnv 0)
    (sampleRequest "x") State.init "connection refused" (by decide) rfl
  ⟨h.2.2.2.2.1, h.2.2.2.2.2.1, h.2.2.2.2.2.2.2.2⟩

/-- Statement C6: when the inspection service is called and answers with a
status code `s`, `400 ≤ s < 500` (and nobody else holds `jailMutex`), the caller
receives exactly that status, those headers and that body, the backend handler
is not invoked, the breaker is untouched, and `recordOffense` is called, once
and for the client, exactly when `s = 403` and jailing is enabled; otherwise
the state is unchanged. -/
theorem C6_block_verdict_relayed (cfg : Config) (env : Env) (req : Request) (s : State)
    (resp : Response)
    (hfree : s.jailMutex = RWMutex.unlocked)
    (hcall : inspectionCalls (ServeHTTP cfg env req s).trace ≠ [])
    (hdo : env.doResult = Except.ok resp)
    (h400 : 400 ≤ resp.statusCode) (hlt : resp.statusCode < 500) :
    (ServeHTTP cfg env req s).returned = true ∧
    statusesWritten (ServeHTTP cfg env req s).trace = [resp.statusCode] ∧
    headersWritten (ServeHTTP cfg env req s).trace = resp.headerPairs ∧
    bodyWritten (ServeHTTP cfg env req s).trace = resp.body ∧
    backendCalls (ServeHTTP cfg env req s).trace = [] ∧
    markUnhealthyCalls (ServeHTTP cfg env req s).trace = 0 ∧
    (ServeHTTP cfg env req s).state.unhealthyWaf = s.unhealthyWaf ∧
    (ServeHTTP cfg env req s).state.resetTimers = s.resetTimers ∧
    (resp.statusCode = 403 ∧ cfg.jailEnabled = true →
      offenseCalls (ServeHTTP cfg env req s).trace = [req.remoteAddr] ∧
      recordOffense cfg env.tVerdict req.remoteAddr s
        = some (ServeHTTP cfg env req s).state) ∧
    (¬ (resp.statusCode = 403 ∧ cfg.jailEnabled = true) →
      offenseCalls (ServeHTTP cfg env req s).trace = [] ∧
      (ServeHTTP cfg env req s).state = s) := by
  obtain ⟨_, heq⟩ := ServeHTTP_inspected cfg env req s hcall
  rw [heq] at hcall
  obtain ⟨hu, hb, hn⟩ := afterJailCheck_inspected cfg env req s hcall
  have h500 : ¬ resp.statusCode ≥ 500 := by omega
  have h400a : resp.statusCode ≥ 400 := h400
  by_cases hoff : resp.statusCode = 403 ∧ cfg.jailEnabled = true
  · obtain ⟨s1, hrec, _, hwaf, htimers, _, _⟩ :=
      recordOffense_unlocked cfg env.tVerdict req.remoteAddr s hfree
    have hout : ServeHTTP cfg env req s =
        { state := s1,
          trace := [Event.ioReadAll, Event.httpClientDo (proxyRequest cfg req),
                    Event.recordOffense req.remoteAddr] ++ forwardResponse resp,
          returned := true } := by
      rw [heq, afterJailCheck_response cfg env req s resp hu hb hn hdo]
      have hoff2 : resp.statusCode = StatusForbidden ∧ cfg.jailEnabled = true := hoff
      simp only [if_neg h500, if_pos h400a, if_pos hoff2, hrec, List.append_nil]
      rfl
    rw [hout]
    refine ⟨rfl, ?_, ?_, ?_, ?_, ?_, hwaf, htimers, fun _ => ⟨?_, hrec⟩,
      fun h => absurd hoff h⟩
    · rw [statusesWritten_append, statusesWritten_forwardResponse]; rfl
    · rw [headersWritten_append, headersWritten_forwardResponse]; rfl
    · rw [bodyWritten_append, bodyWritten_forwardResponse]; rfl
    · rw [backendCalls_append, backendCalls_forwardResponse]; rfl
    · rw [markUnhealthyCalls_append, markUnhealthyCalls_forwardResponse]; rfl
    · rw [offenseCalls_append, offenseCalls_forwardResponse]; rfl
  · have hout : ServeHTTP cfg env req s =
        { state := s,
          trace := [Event.ioReadAll, Event.httpClientDo (proxyRequest cfg req)]
            ++ forwardResponse resp,
          returned := true } := by
      rw [heq, afterJailCheck_response cfg env req s resp hu hb hn hdo]
      have hoff2 : ¬ (resp.statusCode = StatusForbidden ∧ cfg.jailEnabled = true) := hoff
      simp only [if_neg h500, if_pos h400a, if_neg hoff2, List.append_nil]
    rw [hout]
    refine ⟨rfl, ?_, ?_, ?_, ?_, ?_, rfl, rfl, fun h => absurd h hoff, fun _ => ⟨?_, rfl⟩⟩
    · rw [statusesWritten_append, statusesWritten_forwardResponse]; rfl
    · rw [headersWritten_append, headersWritten_forwardResponse]; rfl
    · rw [bodyWritten_append, bodyWritten_forwardResponse]; rfl
    · rw [backendCalls_append, backendCalls_forwardResponse]; rfl
    · rw [markUnhealthyCalls_append, markUnhealthyCalls_forwardResponse]; rfl
    · rw [offenseCalls_append, offenseCalls_forwardResponse]; rfl

/-- Statement C6 at a 403 answer for client `x` with jailing enabled. -/
theorem C6_block_verdict_relayed_witness :
    statusesWritten (ServeHTTP (jailConfig 2 60 30) (verdictEnv 0 403) (sampleRequest "x")
      State.init).trace = [403] ∧
    backendCalls (ServeHTTP (jailConfig 2 60 30) (verdictEnv 0 403) (sampleRequest "x")
      State.init).trace = [] ∧
    offenseCalls (ServeHTTP (jailConfig 2 60 30) (verdictEnv 0 403) (sampleRequest "x")
      State.init).trace = ["x"] :=
  have h := C6_block_verdict_relayed (jailConfig 2 60 30) (verdictEnv 0 403)
    (sampleRequest "x") State.init (sampleResponse 403) rfl (by decide) rfl
    (by decide) (by decide)
  ⟨h.2.1, h.2.2.2.2.1, (h.2.2.2.2.2.2.2.2.1 (by decide)).1⟩

/-! ## The upgrade bypass and the ban response -/

/-- Statement C7: a request with the value `websocket` under the header key
`Upgrade` is handed to the backend handler and nothing else happens, whatever
the jail ledger and the breaker hold: no call of the inspection service, no
response written by `ServeHTTP`, the state unchanged. -/
theorem C7_websocket_bypass (cfg : Config) (env : Env) (req : Request) (s : State)
    (hup : "websocket" ∈ GoMap.index req.header "Upgrade") :
    ServeHTTP cfg env req s
      = { state := s, trace := [Event.nextServeHTTP req], returned := true } ∧
    backendCalls (ServeHTTP cfg env req s).trace = [req] ∧
    inspectionCalls (ServeHTTP cfg env req s).trace = [] ∧
    statusesWritten (ServeHTTP cfg env req s).trace = [] ∧
    (ServeHTTP cfg env req s).state.ledger = s.ledger ∧
    (ServeHTTP cfg env req s).state.unhealthyWaf = s.unhealthyWaf := by
  have hws : isWebsocket req = true := by
    unfold isWebsocket
    rw [List.any_eq_true]
    exact ⟨"websocket", hup, by simp⟩
  have hout : ServeHTTP cfg env req s
      = { state := s, trace := [Event.nextServeHTTP req], returned := true } := by
    unfold ServeHTTP
    rw [if_pos hws]
  rw [hout]
  exact ⟨rfl, rfl, rfl, rfl, rfl, rfl⟩

/-- Statement C7 for client `x` while banned (release at 35 s, request at 20 s)
and with the breaker unhealthy. -/
theorem C7_websocket_bypass_witness :
    GoMap.lookup jailedUnhealthyState.jailRelease "x" = some 35000000000 ∧
    jailedUnhealthyState.unhealthyWaf = true ∧
    backendCalls (ServeHTTP (jailConfig 2 60 30) (verdictEnv 20000000000 403)
      (websocketRequest "x") jailedUnhealthyState).trace = [websocketRequest "x"] ∧
    statusesWritten (ServeHTTP (jailConfig 2 60 30) (verdictEnv 20000000000 403)
      (websocketRequest "x") jailedUnhealthyState).trace = [] :=
  have h := C7_websocket_bypass (jailConfig 2 60 30) (verdictEnv 20000000000 403)
    (websocketRequest "x") jailedUnhealthyState (by decide)
  ⟨rfl, rfl, h.2.1, h.2.2.2.1⟩

/-- Statement C8: with jailing enabled (and no writer on `jailMutex`), a
request that is not an upgrade from a client whose release timestamp lies
strictly in the future gets status 429; the body is not read, the inspection
service and the backend handler are not called, and the jail ledger, the mutex
and the breaker are as before, whatever the breaker flag is. -/
theorem C8_banned_client_rejected (cfg : Config) (env : Env) (req : Request) (s : State)
    (r : Int)
    (hje : cfg.jailEnabled = true) (hws : isWebsocket req = false)
    (hw : s.jailMutex.writer = false)
    (hrel : GoMap.lookup s.jailRelease req.remoteAddr = some r)
    (hlt : env.tJailCheck < r) :
    (ServeHTTP cfg env req s).returned = true ∧
    statusesWritten (ServeHTTP cfg env req s).trace = [429] ∧
    bodyReads (ServeHTTP cfg env req s).trace = 0 ∧
    inspectionCalls (ServeHTTP cfg env req s).trace = [] ∧
    backendCalls (ServeHTTP cfg env req s).trace = [] ∧
    offenseCalls (ServeHTTP cfg env req s).trace = [] ∧
    markUnhealthyCalls (ServeHTTP cfg env req s).trace = 0 ∧
    (ServeHTTP cfg env req s).state.ledger = s.ledger ∧
    (ServeHTTP cfg env req s).state.jailMutex = s.jailMutex ∧
    (ServeHTTP cfg env req s).state.unhealthyWaf = s.unhealthyWaf ∧
    (ServeHTTP cfg env req s).state.resetTimers = s.resetTimers := by
  rw [ServeHTTP_jailCheck_banned cfg env req s r hws hje hw hrel hlt]
  exact ⟨rfl, rfl, rfl, rfl, rfl, rfl, rfl, rfl, rfl, rfl, rfl⟩

/-- Statement C8 for client `x` released at 35 s and asking at 20 s, with the
breaker healthy and with the breaker unhealthy. -/
theorem C8_banned_client_rejected_witness :
    (statusesWritten (ServeHTTP (jailConfig 2 60 30) (verdictEnv 20000000000 200)
        (sampleRequest "x") jailedState).trace = [429] ∧
      inspectionCalls (ServeHTTP (jailConfig 2 60 30) (verdictEnv 20000000000 200)
        (sampleRequest "x") jailedState).trace = []) ∧
    (statusesWritten (ServeHTTP (jailConfig 2 60 30) (verdictEnv 20000000000 200)
        (sampleRequest "x") jailedUnhealthyState).trace = [429] ∧
      backendCalls (ServeHTTP (jailConfig 2 60 30) (verdictEnv 20000000000 200)
        (sampleRequest "x") jailedUnhealthyState).trace = []) :=
  have h1 := C8_banned_client_rejected (jailConfig 2 60 30) (verdictEnv 20000000000 200)
    (sampleRequest "x") jailedState 35000000000 rfl (by decide) rfl rfl (by decide)
  have h2 := C8_banned_client_rejected (jailConfig 2 60 30) (verdictEnv 20000000000 200)
    (sampleRequest "x") jailedUnhealthyState 35000000000 rfl (by decide) rfl rfl (by decide)
  ⟨⟨h1.2.1, h1.2.2.2.1⟩, ⟨h2.2.1, h2.2.2.2.2.1⟩⟩

theorem bodyWritten_tooManyRequests :
    bodyWritten (httpError "Too Many Requests" StatusTooManyRequests)
      = stringBytes "Too Many Requests\n" := by
  decide

/-- Statement C9 fails: the response to banned client `x` (release at 35 s,
request at 20 s) has status 429 and a body of 18 bytes, the text
`Too Many Requests` and a line feed. -/
theorem C9_ban_response_has_body :
    statusesWritten (ServeHTTP (jailConfig 2 60 30) (verdictEnv 20000000000 200)
      (sampleRequest "x") jailedState).trace = [429] ∧
    bodyWritten (ServeHTTP (jailConfig 2 60 30) (verdictEnv 20000000000 200)
      (sampleRequest "x") jailedState).trace ≠ [] ∧
    (bodyWritten (ServeHTTP (jailConfig 2 60 30) (verdictEnv 20000000000 200)
      (sampleRequest "x") jailedState).trace).length = 18 := by
  decide

/-- Statement C9 as the code has it: the response `ServeHTTP` writes for a
banned client has status 429, the headers that `http.Error` sets, and as body
the text `Too Many Requests` followed by a line feed. -/
theorem C9_ban_response_status_and_text (cfg : Config) (env : Env) (req : Request)
    (s : State) (r : Int)
    (hje : cfg.jailEnabled = true) (hws : isWebsocket req = false)
    (hw : s.jailMutex.writer = false)
    (hrel : GoMap.lookup s.jailRelease req.remoteAddr = some r)
    (hlt : env.tJailCheck < r) :
    statusesWritten (ServeHTTP cfg env req s).trace = [429] ∧
    headersWritten (ServeHTTP cfg env req s).trace =
      [("Content-Type", "text/plain; charset=utf-8"), ("X-Content-Type-Options", "nosniff")] ∧
    bodyWritten (ServeHTTP cfg env req s).trace = stringBytes "Too Many Requests\n" := by
  rw [ServeHTTP_jailCheck_banned cfg env req s r hws hje hw hrel hlt]
  exact ⟨rfl, rfl, bodyWritten_tooManyRequests⟩

/-- Statement C9 as the code has it, for client `x` released at 35 s and asking
at 20 s. -/
theorem C9_ban_response_status_and_text_witness :
    bodyWritten (ServeHTTP (jailConfig 2 60 30) (verdictEnv 20000000000 200)
      (sampleRequest "x") jailedState).trace = stringBytes "Too Many Requests\n" :=
  (C9_ban_response_status_and_text (jailConfig 2 60 30) (verdictEnv 20000000000 200)
    (sampleRequest "x") jailedState 35000000000 rfl (by decide) rfl rfl (by decide)).2.2

/-! ## The jail scenario through `ServeHTTP` -/

/-- Statement C10 on the code: after the 403 verdicts at 0 s and 5 s the
release timestamp of `x` is 35 s and the request at 20 s gets the 429 response
with no call of the inspection service; the request at 40 s, however, does not
return: it parks in `releaseFromJail` with its own read hold on `jailMutex`,
and the inspection service is never called. -/
theorem C10_scenario_request_after_release_parks :
    GoMap.lookup scenarioAfterOffenses.jailRelease "x" = some 35000000000 ∧
    statusesWritten (ServeHTTP (jailConfig 2 60 30) (verdictEnv 20000000000 200)
      (sampleRequest "x") scenarioAfterOffenses).trace = [429] ∧
    inspectionCalls (ServeHTTP (jailConfig 2 60 30) (verdictEnv 20000000000 200)
      (sampleRequest "x") scenarioAfterOffenses).trace = [] ∧
    (ServeHTTP (jailConfig 2 60 30) (verdictEnv 40000000000 200) (sampleRequest "x")
      scenarioAfterBanResponse).returned = false ∧
    inspectionCalls (ServeHTTP (jailConfig 2 60 30) (verdictEnv 40000000000 200)
      (sampleRequest "x") scenarioAfterBanResponse).trace = [] ∧
    (ServeHTTP (jailConfig 2 60 30) (verdictEnv 40000000000 200) (sampleRequest "x")
      scenarioAfterBanResponse).state.jailMutex = { readers := 1, writer := false } ∧
    GoMap.lookup (ServeHTTP (jailConfig 2 60 30) (verdictEnv 40000000000 200)
      (sampleRequest "x") scenarioAfterBanResponse).state.jailRelease "x"
      = some 35000000000 := by
  decide

/-! ## The health breaker -/

theorem markUnhealthy_disabled (cfg : Config) (now : Int) (s : State)
    (h0 : cfg.unhealthyWafBackOffPeriodSecs = 0) : markUnhealthy cfg now s = s := by
  unfold markUnhealthy
  rw [if_pos h0]

theorem markUnhealthy_already (cfg : Config) (now : Int) (s : State)
    (hu : s.unhealthyWaf = true) : markUnhealthy cfg now s = s := by
  unfold markUnhealthy
  split_ifs with h0 h1
  · rfl
  · rw [hu] at h1
    exact absurd h1 (by decide)
  · rfl

/-- The effect of `markUnhealthy` on a healthy breaker with a back-off set. -/
theorem markUnhealthy_trips (cfg : Config) (now : Int) (s : State)
    (h0 : cfg.unhealthyWafBackOffPeriodSecs ≠ 0) (hu : s.unhealthyWaf = false) :
    (markUnhealthy cfg now s).unhealthyWaf = true ∧
    (markUnhealthy cfg now s).resetTimers
      = s.resetTimers ++ [now + secondsToDuration cfg.unhealthyWafBackOffPeriodSecs] := by
  unfold markUnhealthy
  rw [if_neg h0, hu]
  exact ⟨rfl, rfl⟩

/-- With the back-off at zero no run of breaker operations sets the flag. -/
theorem runBreakerOps_disabled (cfg : Config) (ops : List BreakerOp) (s s1 : State)
    (h0 : cfg.unhealthyWafBackOffPeriodSecs = 0) (hu : s.unhealthyWaf = false)
    (hrun : runBreakerOps cfg ops s = some s1) : s1.unhealthyWaf = false := by
  induction ops generalizing s with
  | nil =>
    simp only [runBreakerOps, Option.some.injEq] at hrun
    rw [← hrun]; exact hu
  | cons op ops ih =>
    cases op with
    | mark now =>
      simp only [runBreakerOps, BreakerOp.apply, markUnhealthy_disabled cfg now s h0] at hrun
      exact ih s hu hrun
    | fire due =>
      simp only [runBreakerOps, BreakerOp.apply] at hrun
      split_ifs at hrun with hmem
      exact ih (resetTimerFire due s) rfl hrun

/-- Statement C12: `markUnhealthy` on the breaker state.  With the back-off at
zero it changes nothing (and no run of breaker operations sets the flag); with
the flag already set it changes nothing, so a second call changes nothing;
otherwise it sets the flag and appends one reset timer, due at `now` plus the
back-off, whose firing clears the flag and leaves no timer of this call. -/
theorem C12_markUnhealthy_cases (cfg : Config) (now : Int) (s : State) :
    (cfg.unhealthyWafBackOffPeriodSecs = 0 →
      markUnhealthy cfg now s = s ∧
      ∀ ops s1, s.unhealthyWaf = false → runBreakerOps cfg ops s = some s1 →
        s1.unhealthyWaf = false) ∧
    (s.unhealthyWaf = true → markUnhealthy cfg now s = s) ∧
    (∀ now2, markUnhealthy cfg now2 (markUnhealthy cfg now s) = markUnhealthy cfg now s) ∧
    (cfg.unhealthyWafBackOffPeriodSecs ≠ 0 → s.unhealthyWaf = false →
      (markUnhealthy cfg now s).unhealthyWaf = true ∧
      (markUnhealthy cfg now s).resetTimers
        = s.resetTimers ++ [now + secondsToDuration cfg.unhealthyWafBackOffPeriodSecs] ∧
      (markUnhealthy cfg now s).ledger = s.ledger ∧
      (resetTimerFire (now + secondsToDuration cfg.unhealthyWafBackOffPeriodSecs)
        (markUnhealthy cfg now s)).unhealthyWaf = false) := by
  refine ⟨fun h0 => ⟨markUnhealthy_disabled cfg now s h0, ?_⟩,
    markUnhealthy_already cfg now s, ?_, ?_⟩
  · intro ops s1 hu hrun
    exact runBreakerOps_disabled cfg ops s s1 h0 hu hrun
  · intro now2
    by_cases h0 : cfg.unhealthyWafBackOffPeriodSecs = 0
    · rw [markUnhealthy_disabled cfg now s h0, markUnhealthy_disabled cfg now2 s h0]
    · cases hu : s.unhealthyWaf with
      | true =>
        rw [markUnhealthy_already cfg now s hu, markUnhealthy_already cfg now2 s hu]
      | false =>
        exact markUnhealthy_already cfg now2 _ (markUnhealthy_trips cfg now s h0 hu).1
  · intro h0 hu
    exact ⟨(markUnhealthy_trips cfg now s h0 hu).1, (markUnhealthy_trips cfg now s h0 hu).2,
      markUnhealthy_ledger cfg now s, rfl⟩

/-- Statement C12 on the initial state: no effect with the breaker of
`jailConfig` (back-off 0); with a back-off of 10 s a call at 0 s sets the flag
and leaves one timer due at 10 s, and a second call at 3 s changes nothing. -/
theorem C12_markUnhealthy_cases_witness :
    markUnhealthy (jailConfig 2 60 30) 0 State.init = State.init ∧
    (markUnhealthy breakerConfig 0 State.init).unhealthyWaf = true ∧
    (markUnhealthy breakerConfig 0 State.init).resetTimers = [10000000000] ∧
    markUnhealthy breakerConfig 3000000000 (markUnhealthy breakerConfig 0 State.init)
      = markUnhealthy breakerConfig 0 State.init :=
  have h0 := C12_markUnhealthy_cases (jailConfig 2 60 30) 0 State.init
  have h := C12_markUnhealthy_cases breakerConfig 0 State.init
  ⟨(h0.1 rfl).1, (h.2.2.2 (by decide) rfl).1, (h.2.2.2 (by decide) rfl).2.1,
    h.2.2.1 3000000000⟩

/-- The breaker invariant: at most one reset timer is pending, and the flag is
set exactly when one is. -/
theorem breaker_invariant_step (cfg : Config) (op : BreakerOp) (s s1 : State)
    (hlen : s.resetTimers.length ≤ 1)
    (hiff : s.unhealthyWaf = true ↔ s.resetTimers ≠ [])
    (hstep : op.apply cfg s = some s1) :
    s1.resetTimers.length ≤ 1 ∧ (s1.unhealthyWaf = true ↔ s1.resetTimers ≠ []) := by
  cases op with
  | mark now =>
    simp only [BreakerOp.apply, Option.some.injEq] at hstep
    subst hstep
    by_cases h0 : cfg.unhealthyWafBackOffPeriodSecs = 0
    · rw [markUnhealthy_disabled cfg now s h0]; exact ⟨hlen, hiff⟩
    · cases hu : s.unhealthyWaf with
      | true => rw [markUnhealthy_already cfg now s hu]; exact ⟨hlen, hiff⟩
      | false =>
        have hnil : s.resetTimers = [] := by
          by_contra hne
          have := hiff.mpr hne
          rw [hu] at this
          exact absurd this (by decide)
        obtain ⟨hflag, htimers⟩ := markUnhealthy_trips cfg now s h0 hu
        rw [htimers, hnil, hflag]
        simp
  | fire due =>
    simp only [BreakerOp.apply] at hstep
    split_ifs at hstep with hmem
    · simp only [Option.some.injEq] at hstep
      subst hstep
      have hone : s.resetTimers = [due] := by
        cases hts : s.resetTimers with
        | nil => rw [hts] at hmem; simp at hmem
        | cons a rest =>
          rw [hts] at hlen hmem
          simp only [List.length_cons] at hlen
          have hrest : rest = [] := List.eq_nil_of_length_eq_zero (by omega)
          subst hrest
          simp only [List.mem_singleton] at hmem
          rw [hmem]
      simp [resetTimerFire, State.logPrintf, hone]

/-- Statement C13: in every state reached from a state with the flag clear and
no timer (such as the initial state) by any sequence of `markUnhealthy` calls
and firings of pending timers, at most one reset timer is pending and the flag
is set exactly when a timer is pending. -/
theorem C13_breaker_invariant (cfg : Config) (ops : List BreakerOp) (s0 s : State)
    (hflag : s0.unhealthyWaf = false) (htimers : s0.resetTimers = [])
    (hrun : runBreakerOps cfg ops s0 = some s) :
    s.resetTimers.length ≤ 1 ∧ (s.unhealthyWaf = true ↔ s.resetTimers ≠ []) := by
  have hgen : ∀ (ops : List BreakerOp) (a b : State),
      a.resetTimers.length ≤ 1 → (a.unhealthyWaf = true ↔ a.resetTimers ≠ []) →
      runBreakerOps cfg ops a = some b →
      b.resetTimers.length ≤ 1 ∧ (b.unhealthyWaf = true ↔ b.resetTimers ≠ []) := by
    intro ops
    induction ops with
    | nil =>
      intro a b hlen hiff hrun
      simp only [runBreakerOps, Option.some.injEq] at hrun
      subst hrun
      exact ⟨hlen, hiff⟩
    | cons op ops ih =>
      intro a b hlen hiff hrun
      simp only [runBreakerOps] at hrun
      cases hstep : op.apply cfg a with
      | none => rw [hstep] at hrun; simp at hrun
      | some a1 =>
        rw [hstep] at hrun
        obtain ⟨hlen1, hiff1⟩ := breaker_invariant_step cfg op a a1 hlen hiff hstep
        exact ih a1 b hlen1 hiff1 hrun
  refine hgen ops s0 s ?_ ?_ hrun
  · rw [htimers]; simp
  · rw [htimers, hflag]; simp

/-- Statement C13 on the run: failure at 0 s, failure at 3 s, the timer due at
10 s fires, failure at 12 s (back-off 10 s). -/
theorem C13_breaker_invariant_witness :
    ∃ s, runBreakerOps breakerConfig
        [BreakerOp.mark 0, BreakerOp.mark 3000000000, BreakerOp.fire 10000000000,
         BreakerOp.mark 12000000000] State.init = some s ∧
      s.resetTimers = [22000000000] ∧
      s.resetTimers.length ≤ 1 ∧ (s.unhealthyWaf = true ↔ s.resetTimers ≠ []) :=
  ⟨_, rfl, by decide,
    C13_breaker_invariant breakerConfig
      [BreakerOp.mark 0, BreakerOp.mark 3000000000, BreakerOp.fire 10000000000,
       BreakerOp.mark 12000000000] State.init _ rfl rfl rfl⟩

/-! ## The back-off window -/

theorem afterJailCheck_unhealthy (cfg : Config) (env : Env) (req : Request) (s : State)
    (hu : s.unhealthyWaf = true) :
    ServeHTTP.afterJailCheck cfg env req s
      = { state := s, trace := [Event.nextServeHTTP req], returned := true } := by
  unfold ServeHTTP.afterJailCheck
  simp only [hu, if_true]

/-- With the breaker unhealthy, an upgrade request and a request that passes
the jail check are handed to the backend handler and nothing else happens. -/
theorem ServeHTTP_unhealthy_bypass (cfg : Config) (env : Env) (req : Request) (s : State)
    (hu : s.unhealthyWaf = true)
    (hpass : isWebsocket req = true ∨ cfg.jailEnabled = false ∨
      (s.jailMutex.writer = false ∧ GoMap.lookup s.jailRelease req.remoteAddr = none)) :
    ServeHTTP cfg env req s
      = { state := s, trace := [Event.nextServeHTTP req], returned := true } := by
  cases hws : isWebsocket req with
  | true =>
    unfold ServeHTTP
    rw [if_pos hws]
  | false =>
    rcases hpass with h | h
    · rw [hws] at h; exact absurd h (by decide)
    · rw [ServeHTTP_pass cfg env req s hws h]
      exact afterJailCheck_unhealthy cfg env req s hu

/-- `ServeHTTP` never clears the breaker flag and never touches the timers of
an unhealthy breaker. -/
theorem ServeHTTP_keeps_unhealthy (cfg : Config) (env : Env) (req : Request) (s : State)
    (hu : s.unhealthyWaf = true) :
    (ServeHTTP cfg env req s).state.unhealthyWaf = true ∧
    (ServeHTTP cfg env req s).state.resetTimers = s.resetTimers := by
  cases hws : isWebsocket req with
  | true => rw [ServeHTTP_unhealthy_bypass cfg env req s hu (Or.inl hws)]; exact ⟨hu, rfl⟩
  | false =>
    cases hje : cfg.jailEnabled with
    | false =>
      rw [ServeHTTP_unhealthy_bypass cfg env req s hu (Or.inr (Or.inl hje))]; exact ⟨hu, rfl⟩
    | true =>
      cases hw : s.jailMutex.writer with
      | true =>
        have hout : ServeHTTP cfg env req s = { state := s, trace := [], returned := false } := by
          unfold ServeHTTP
          simp [hws, hje, RWMutex.RLock, hw]
        rw [hout]; exact ⟨hu, rfl⟩
      | false =>
        cases hl : GoMap.lookup s.jailRelease req.remoteAddr with
        | none =>
          rw [ServeHTTP_unhealthy_bypass cfg env req s hu (Or.inr (Or.inr ⟨hw, hl⟩))]
          exact ⟨hu, rfl⟩
        | some r =>
          by_cases hlt : env.tJailCheck < r
          · rw [ServeHTTP_jailCheck_banned cfg env req s r hws hje hw hl hlt]
            exact ⟨hu, rfl⟩
          · rw [ServeHTTP_jailCheck_lapsed cfg env req s r hws hje hw hl (by omega)]
            exact ⟨hu, rfl⟩

/-- The state after a request whose inspection call fails at transport level
or is answered with a status code of 500 or more: `markUnhealthy` applied. -/
theorem ServeHTTP_upstream_failure (cfg : Config) (env : Env) (req : Request) (s : State)
    (hcall : inspectionCalls (ServeHTTP cfg env req s).trace ≠ [])
    (hfail : (∃ e, env.doResult = Except.error e) ∨
      (∃ resp, env.doResult = Except.ok resp ∧ resp.statusCode ≥ 500)) :
    (ServeHTTP cfg env req s).state = markUnhealthy cfg env.tVerdict s := by
  obtain ⟨_, heq⟩ := ServeHTTP_inspected cfg env req s hcall
  rw [heq] at hcall
  obtain ⟨hu, hb, hn⟩ := afterJailCheck_inspected cfg env req s hcall
  rcases hfail with ⟨e, hdo⟩ | ⟨resp, hdo, h500⟩
  · rw [heq, afterJailCheck_transport_error cfg env req s e hu hb hn hdo]
  · have h400 : resp.statusCode ≥ 400 := by omega
    have h403 : ¬ (resp.statusCode = StatusForbidden ∧ cfg.jailEnabled = true) := by
      unfold StatusForbidden
      intro h
      omega
    rw [heq, afterJailCheck_response cfg env req s resp hu hb hn hdo]
    simp only [if_pos h500, if_pos h400, if_neg h403]

/-- Before the only pending timer is due, no run of actions clears the flag. -/
theorem runActions_before_due (cfg : Config) (due : Int) (acts : List (Int × Action))
    (s s2 : State)
    (hu : s.unhealthyWaf = true) (htimers : s.resetTimers = [due])
    (hearly : ∀ a ∈ acts, a.1 < due)
    (hrun : runActions cfg acts s = some s2) :
    s2.unhealthyWaf = true ∧ s2.resetTimers = [due] := by
  induction acts generalizing s with
  | nil =>
    simp only [runActions, Option.some.injEq] at hrun
    subst hrun
    exact ⟨hu, htimers⟩
  | cons a rest ih =>
    obtain ⟨t, act⟩ := a
    have ht : t < due := hearly (t, act) (List.mem_cons_self _ _)
    have hrest : ∀ b ∈ rest, b.1 < due := fun b hb => hearly b (List.mem_cons_of_mem _ hb)
    simp only [runActions] at hrun
    cases act with
    | serve env req =>
      simp only [Action.apply] at hrun
      split_ifs at hrun with hret
      obtain ⟨hu1, ht1⟩ := ServeHTTP_keeps_unhealthy cfg env req s hu
      exact ih _ hu1 (ht1.trans htimers) hrest hrun
    | timerFire d =>
      simp only [Action.apply] at hrun
      split_ifs at hrun with hfire
      exfalso
      rw [htimers, List.mem_singleton] at hfire
      omega

/-- Statement C11 fails for a banned client: with jailing enabled and a
back-off of 10 s, after a 500 answer for client `y` at 0 s the breaker is
unhealthy, yet the request at 5 s of client `x`, banned until 35 s, gets the
429 response and is not handed to the backend handler. -/
theorem C11_banned_client_not_bypassed :
    jailedState.unhealthyWaf = false ∧
    (ServeHTTP jailBreakerConfig (verdictEnv 0 500) (sampleRequest "y")
      jailedState).state.unhealthyWaf = true ∧
    (ServeHTTP jailBreakerConfig (verdictEnv 0 500) (sampleRequest "y")
      jailedState).state.resetTimers = [10000000000] ∧
    backendCalls (ServeHTTP jailBreakerConfig (verdictEnv 5000000000 200) (sampleRequest "x")
      (ServeHTTP jailBreakerConfig (verdictEnv 0 500) (sampleRequest "y")
        jailedState).state).trace = [] ∧
    statusesWritten (ServeHTTP jailBreakerConfig (verdictEnv 5000000000 200)
      (sampleRequest "x")
      (ServeHTTP jailBreakerConfig (verdictEnv 0 500) (sampleRequest "y")
        jailedState).state).trace = [429] := by
  decide

/-- Statement C11 as the code has it.  After one upstream failure (transport
error, or status 500 or more) on a healthy breaker with a back-off `B > 0`, the
flag is set and one reset timer is pending, due at the failure time plus `B`.
Through every run of requests and timer firings at times before that due time
the flag stays set, and then every upgrade request and every request that
passes the jail check (jailing off, or no release timestamp for the client) is
handed to the backend handler with no call of the inspection service.  From
the due time on the timer can fire; once it has, the flag is clear and every
request that is not an upgrade, passes the jail check and whose body and
forwarded request are in order is sent to the inspection service. -/
theorem C11_backoff_window (cfg : Config) (env0 : Env) (req0 : Request) (s0 : State)
    (hB : 0 < cfg.unhealthyWafBackOffPeriodSecs)
    (hhealthy : s0.unhealthyWaf = false) (hnotimer : s0.resetTimers = [])
    (hcall0 : inspectionCalls (ServeHTTP cfg env0 req0 s0).trace ≠ [])
    (hfail : (∃ e, env0.doResult = Except.error e) ∨
      (∃ resp, env0.doResult = Except.ok resp ∧ resp.statusCode ≥ 500)) :
    (ServeHTTP cfg env0 req0 s0).state.unhealthyWaf = true ∧
    (ServeHTTP cfg env0 req0 s0).state.resetTimers
      = [env0.tVerdict + secondsToDuration cfg.unhealthyWafBackOffPeriodSecs] ∧
    ∀ acts s2,
      (∀ a ∈ acts, a.1 < env0.tVerdict + secondsToDuration cfg.unhealthyWafBackOffPeriodSecs) →
      runActions cfg acts (ServeHTTP cfg env0 req0 s0).state = some s2 →
      s2.unhealthyWaf = true ∧
      (∀ env req,
        (isWebsocket req = true ∨ cfg.jailEnabled = false ∨
          (s2.jailMutex.writer = false ∧ GoMap.lookup s2.jailRelease req.remoteAddr = none)) →
        ServeHTTP cfg env req s2
          = { state := s2, trace := [Event.nextServeHTTP req], returned := true }) ∧
      (∀ t, env0.tVerdict + secondsToDuration cfg.unhealthyWafBackOffPeriodSecs ≤ t →
        Action.apply cfg t
            (Action.timerFire
              (env0.tVerdict + secondsToDuration cfg.unhealthyWafBackOffPeriodSecs)) s2
          = some (resetTimerFire
              (env0.tVerdict + secondsToDuration cfg.unhealthyWafBackOffPeriodSecs) s2)) ∧
      (resetTimerFire
        (env0.tVerdict + secondsToDuration cfg.unhealthyWafBackOffPeriodSecs) s2).unhealthyWaf
        = false ∧
      (∀ env req, isWebsocket req = false →
        (cfg.jailEnabled = false ∨
          (s2.jailMutex.writer = false ∧ GoMap.lookup s2.jailRelease req.remoteAddr = none)) →
        req.body.failure = none → env.newRequestErr = none →
        inspectionCalls (ServeHTTP cfg env req
          (resetTimerFire
            (env0.tVerdict + secondsToDuration cfg.unhealthyWafBackOffPeriodSecs) s2)).trace
          ≠ []) := by
  have hne : cfg.unhealthyWafBackOffPeriodSecs ≠ 0 := by omega
  have hstate := ServeHTTP_upstream_failure cfg env0 req0 s0 hcall0 hfail
  obtain ⟨hflag, htim⟩ := markUnhealthy_trips cfg env0.tVerdict s0 hne hhealthy
  rw [hnotimer, List.nil_append] at htim
  rw [hstate]
  refine ⟨hflag, htim, ?_⟩
  intro acts s2 hearly hrun
  obtain ⟨hu2, ht2⟩ := runActions_before_due cfg _ acts _ s2 hflag htim hearly hrun
  refine ⟨hu2, ?_, ?_, rfl, ?_⟩
  · intro env req hpass
    exact ServeHTTP_unhealthy_bypass cfg env req s2 hu2 hpass
  · intro t ht
    simp only [Action.apply, ht2, List.mem_singleton, true_and, if_pos ht]
  · intro env req hws hjail hb hn
    exact ServeHTTP_calls_inspection cfg env req _ hws hjail rfl hb hn

/-- Statement C11 as the code has it, on the scenario: a 500 answer at 0 s with
a back-off of 10 s; the request at 5 s goes to the backend handler with no call
of the inspection service; after the timer has fired the request at 15 s is
sent to the inspection service. -/
theorem C11_backoff_window_witness :
    (ServeHTTP breakerConfig (verdictEnv 0 500) (sampleRequest "x")
      State.init).state.resetTimers = [10000000000] ∧
    ServeHTTP breakerConfig (verdictEnv 5000000000 200) (sampleRequest "x")
        (ServeHTTP breakerConfig (verdictEnv 0 500) (sampleRequest "x") State.init).state
      = { state := (ServeHTTP breakerConfig (verdictEnv 0 500) (sampleRequest "x")
            State.init).state,
          trace := [Event.nextServeHTTP (sampleRequest "x")], returned := true } ∧
    inspectionCalls (ServeHTTP breakerConfig (verdictEnv 15000000000 200) (sampleRequest "x")
      (resetTimerFire 10000000000
        (ServeHTTP breakerConfig (verdictEnv 0 500) (sampleRequest "x")
          State.init).state)).trace ≠ [] :=
  have h := C11_backoff_window breakerConfig (verdictEnv 0 500) (sampleRequest "x")
    State.init (by decide) rfl rfl (by decide)
    (Or.inr ⟨sampleResponse 500, rfl, by decide⟩)
  have h2 := h.2.2 [] _ (fun a ha => absurd ha (List.not_mem_nil a)) rfl
  ⟨h.2.1, h2.2.1 (verdictEnv 5000000000 200) (sampleRequest "x") (Or.inr (Or.inl rfl)),
    h2.2.2.2.2 (verdictEnv 15000000000 200) (sampleRequest "x") (by decide) (Or.inl rfl)
      rfl rfl⟩

/-! ## Ledger operations that return -/

theorem RWMutex.Lock_some (m m1 : RWMutex) (h : m.Lock = some m1) :
    m = RWMutex.unlocked := by
  unfold RWMutex.Lock at h
  split_ifs at h with hc
  cases m with
  | mk readers writer =>
    simp only at hc
    rw [hc.1, hc.2]
    rfl

/-- A `recordOffense` call that returns found `jailMutex` not held. -/
theorem recordOffense_some_unlocked (cfg : Config) (now : Int) (c : String) (s s1 : State)
    (h : recordOffense cfg now c s = some s1) : s.jailMutex = RWMutex.unlocked := by
  unfold recordOffense at h
  cases hl : s.jailMutex.Lock with
  | none => rw [hl] at h; simp at h
  | some m => exact RWMutex.Lock_some _ m hl

/-- A `recordOffense` call leaves the windows of the other clients alone. -/
theorem recordOffense_jail_other (cfg : Config) (now : Int) (c d : String) (s s1 : State)
    (hne : d ≠ c) (h : recordOffense cfg now c s = some s1) :
    GoMap.lookup s1.jail d = GoMap.lookup s.jail d := by
  have hfree := recordOffense_some_unlocked cfg now c s s1 h
  unfold recordOffense at h
  rw [hfree] at h
  simp only [RWMutex.Lock, RWMutex.unlocked, and_self, if_true] at h
  cases hl : GoMap.lookup s.jail c with
  | none =>
    simp only [hl] at h
    split_ifs at h <;>
      (simp only [Option.some.injEq] at h
       subst h
       simp [State.logPrintf, GoMap.lookup_assign_ne _ c d _ hne])
  | some w =>
    simp only [hl] at h
    split_ifs at h <;>
      (simp only [Option.some.injEq] at h
       subst h
       simp [State.logPrintf, GoMap.lookup_assign_ne _ c d _ hne])

/-- What a `recordOffense` call that returns leaves behind. -/
theorem recordOffense_frame (cfg : Config) (now : Int) (c : String) (s s1 : State)
    (h : recordOffense cfg now c s = some s1) :
    (∀ d, d ≠ c → GoMap.lookup s1.jail d = GoMap.lookup s.jail d ∧
      GoMap.lookup s1.jailRelease d = GoMap.lookup s.jailRelease d) ∧
    GoMap.lookup s1.jail c = some (pruneOffenses cfg now (GoMap.index s.jail c) ++ [now]) ∧
    (GoMap.lookup s.jailRelease c ≠ none → GoMap.lookup s1.jailRelease c ≠ none) ∧
    s1.unhealthyWaf = s.unhealthyWaf ∧ s1.resetTimers = s.resetTimers ∧
    s1.jailMutex = s.jailMutex := by
  have hfree := recordOffense_some_unlocked cfg now c s s1 h
  obtain ⟨s2, hrun, hfree2, hwaf, htim, hwin, hrel⟩ := recordOffense_unlocked cfg now c s hfree
  have hs : s2 = s1 := Option.some.inj (hrun.symm.trans h)
  subst hs
  refine ⟨?_, hwin, ?_, hwaf, htim, hfree2.trans hfree.symm⟩
  · intro d hne
    refine ⟨recordOffense_jail_other cfg now c d s s2 hne h, ?_⟩
    rw [hrel]
    split_ifs
    · exact GoMap.lookup_assign_ne _ c d _ hne
    · rfl
  · intro hpresent
    rw [hrel]
    split_ifs
    · rw [GoMap.lookup_assign_self]; exact Option.some_ne_none _
    · exact hpresent

/-- What an `isClientInJail` call that returns leaves behind: the state as it
was, or, for a lapsed release timestamp, the state without the two entries of
the client. -/
theorem isClientInJail_some (now : Int) (c : String) (s s1 : State) (v : Bool)
    (h : isClientInJail now c s = some (v, s1)) :
    (s1 = s ∧ (v = true ↔ ∃ r, GoMap.lookup s.jailRelease c = some r ∧ now < r)) ∨
    (v = false ∧ ∃ r, GoMap.lookup s.jailRelease c = some r ∧ r ≤ now ∧
      s1.jail = GoMap.delete s.jail c ∧ s1.jailRelease = GoMap.delete s.jailRelease c ∧
      s1.jailMutex = s.jailMutex ∧ s1.unhealthyWaf = s.unhealthyWaf ∧
      s1.resetTimers = s.resetTimers) := by
  cases hl : GoMap.lookup s.jailRelease c with
  | none =>
    rw [isClientInJail_absent now c s hl] at h
    simp only [Option.some.injEq, Prod.mk.injEq] at h
    left
    refine ⟨h.2.symm, ?_⟩
    rw [← h.1]
    simp
  | some r =>
    by_cases hlt : now < r
    · rw [isClientInJail_banned now c s r hl hlt] at h
      simp only [Option.some.injEq, Prod.mk.injEq] at h
      left
      refine ⟨h.2.symm, ?_⟩
      rw [← h.1]
      simp [hlt]
    · right
      have hge : r ≤ now := by omega
      by_cases hfree : s.jailMutex = RWMutex.unlocked
      · obtain ⟨s2, hrun, hj, hr, hm, hw, ht⟩ :=
          isClientInJail_lapsed_unlocked now c s r hl hge hfree
        rw [hrun] at h
        simp only [Option.some.injEq, Prod.mk.injEq] at h
        rw [← h.1, ← h.2]
        exact ⟨rfl, r, rfl, hge, hj, hr, hm.trans hfree.symm, hw, ht⟩
      · exfalso
        have hnb : Time.Before now r = false := by
          simp [Time.Before]; omega
        have hlock : s.jailMutex.Lock = none := by
          cases hlk : s.jailMutex.Lock with
          | none => rfl
          | some m => exact absurd (RWMutex.Lock_some _ m hlk) hfree
        unfold isClientInJail at h
        rw [hl] at h
        simp [hnb, releaseFromJail, hlock] at h

/-- A check of a lapsed release timestamp that returns has returned false and
deleted both entries of the client. -/
theorem isClientInJail_lapsed_some (now : Int) (c : String) (s s1 : State) (v : Bool)
    (r : Int) (hrel : GoMap.lookup s.jailRelease c = some r) (hge : r ≤ now)
    (h : isClientInJail now c s = some (v, s1)) :
    v = false ∧ s1.jail = GoMap.delete s.jail c ∧
    s1.jailRelease = GoMap.delete s.jailRelease c := by
  by_cases hfree : s.jailMutex = RWMutex.unlocked
  · obtain ⟨s2, hrun, hj, hr, _⟩ := isClientInJail_lapsed_unlocked now c s r hrel hge hfree
    rw [hrun] at h
    simp only [Option.some.injEq, Prod.mk.injEq] at h
    rw [← h.1, ← h.2]
    exact ⟨rfl, hj, hr⟩
  · exfalso
    have hnb : Time.Before now r = false := by
      simp [Time.Before]; omega
    have hlock : s.jailMutex.Lock = none := by
      cases hlk : s.jailMutex.Lock with
      | none => rfl
      | some m => exact absurd (RWMutex.Lock_some _ m hlk) hfree
    unfold isClientInJail at h
    rw [hrel] at h
    simp [hnb, releaseFromJail, hlock] at h

/-! ## The offense window after an operation -/

/-- Statement C14 fails for the read: client `c` has one offense, at 0 s, and
no release timestamp; `isClientInJail` at 700 s (window 60 s) returns false and
leaves that offense in the window, although it is older than the window. -/
theorem C14_check_keeps_stale_offense :
    isClientInJail 700000000000 "c" twoClientState = some (false, twoClientState) ∧
    GoMap.index twoClientState.jail "c" = [0] ∧
    ¬ (700000000000 - 0 ≤ (jailConfig 2 60 30).thresholdPeriod) := by
  decide

/-- Statement C14 as the code has it.  After `recordOffense` for a client at
time `now`, every timestamp in the window of that client is `now` itself or
lies within the threshold period of `now` (so all do when the period is not
negative).  `isClientInJail` does not prune: with no release timestamp it
returns false, and with a release timestamp in the future it returns true, in
both cases with the state, and so the window, exactly as it was, whatever the
age of the offenses in it; with a lapsed release timestamp a call that
returns has returned false and removed the window and the release timestamp
altogether. -/
theorem C14_window_after_operations (cfg : Config) (now : Int) (c : String) (s : State) :
    (∀ s1, recordOffense cfg now c s = some s1 →
      (∀ t ∈ GoMap.index s1.jail c, t = now ∨ now - t ≤ cfg.thresholdPeriod) ∧
      (0 ≤ cfg.thresholdPeriod → ∀ t ∈ GoMap.index s1.jail c, now - t ≤ cfg.thresholdPeriod)) ∧
    (GoMap.lookup s.jailRelease c = none → isClientInJail now c s = some (false, s)) ∧
    (∀ r, GoMap.lookup s.jailRelease c = some r → now < r →
      isClientInJail now c s = some (true, s)) ∧
    (∀ r v s1, GoMap.lookup s.jailRelease c = some r → r ≤ now →
      isClientInJail now c s = some (v, s1) →
      v = false ∧ GoMap.lookup s1.jail c = none ∧ GoMap.lookup s1.jailRelease c = none) := by
  refine ⟨?_, isClientInJail_absent now c s, ?_, ?_⟩
  · intro s1 h
    obtain ⟨_, hwin, _⟩ := recordOffense_frame cfg now c s s1 h
    have hidx : GoMap.index s1.jail c
        = pruneOffenses cfg now (GoMap.index s.jail c) ++ [now] := by
      show (GoMap.lookup s1.jail c).getD [] = _
      rw [hwin]; rfl
    have hall : ∀ t ∈ GoMap.index s1.jail c, t = now ∨ now - t ≤ cfg.thresholdPeriod := by
      intro t ht
      rw [hidx, List.mem_append] at ht
      rcases ht with ht | ht
      · right
        rw [pruneOffenses_eq_filter, List.mem_filter] at ht
        simpa using ht.2
      · left
        simpa using ht
    refine ⟨hall, ?_⟩
    intro hpos t ht
    rcases hall t ht with h1 | h1
    · rw [h1]; omega
    · exact h1
  · intro r hrel hlt
    exact isClientInJail_banned now c s r hrel hlt
  · intro r v s1 hrel hge h
    obtain ⟨hv, hj, hr⟩ := isClientInJail_lapsed_some now c s s1 v r hrel hge h
    exact ⟨hv, by rw [hj]; exact GoMap.lookup_delete_self _ c,
      by rw [hr]; exact GoMap.lookup_delete_self _ c⟩

/-- Statement C14 as the code has it, on `twoClientState` with a window of 60 s.
Write: after the offense of `c` at 70 s the window of `c`, `[0 s]` before, is
`[70 s]`.  Read: the check of `c` at 700 s returns false and leaves the state,
with the stale window `[0 s]`, as it was; the check of `d` (release at 35 s) at
20 s returns true and leaves the state as it was. -/
theorem C14_window_after_operations_witness :
    (∃ s1, recordOffense (jailConfig 3 60 30) 70000000000 "c" twoClientState = some s1 ∧
      GoMap.index s1.jail "c" = [70000000000] ∧
      ∀ t ∈ GoMap.index s1.jail "c",
        70000000000 - t ≤ (jailConfig 3 60 30).thresholdPeriod) ∧
    isClientInJail 700000000000 "c" twoClientState = some (false, twoClientState) ∧
    isClientInJail 20000000000 "d" twoClientState = some (true, twoClientState) := by
  refine ⟨⟨_, rfl, by decide, ?_⟩, ?_, ?_⟩
  · exact ((C14_window_after_operations (jailConfig 3 60 30) 70000000000 "c"
      twoClientState).1 _ rfl).2 (by decide)
  · exact (C14_window_after_operations (jailConfig 3 60 30) 700000000000 "c"
      twoClientState).2.1 rfl
  · exact (C14_window_after_operations (jailConfig 3 60 30) 20000000000 "d"
      twoClientState).2.2.1 35000000000 rfl (by decide)

/-! ## The allow verdict -/

/-- Statement C15: when the inspection service is called and answers with a
status code below 400, the backend handler is invoked once, with the request
as it arrived; the body that handler can read is the original body; `ServeHTTP`
writes nothing to the caller itself, and the state (jail ledger and breaker
included) is unchanged. -/
theorem C15_allow_verdict_delivers (cfg : Config) (env : Env) (req : Request) (s : State)
    (resp : Response)
    (hcall : inspectionCalls (ServeHTTP cfg env req s).trace ≠ [])
    (hdo : env.doResult = Except.ok resp)
    (hlt : resp.statusCode < 400) :
    (ServeHTTP cfg env req s).returned = true ∧
    (ServeHTTP cfg env req s).trace =
      [Event.ioReadAll, Event.httpClientDo (proxyRequest cfg req), Event.nextServeHTTP req] ∧
    backendCalls (ServeHTTP cfg env req s).trace = [req] ∧
    (∀ r ∈ backendCalls (ServeHTTP cfg env req s).trace,
      (ioReadAll r.body).1 = Except.ok req.body.unread) ∧
    (proxyRequest cfg req).body = req.body.unread ∧
    statusesWritten (ServeHTTP cfg env req s).trace = [] ∧
    headersWritten (ServeHTTP cfg env req s).trace = [] ∧
    bodyWritten (ServeHTTP cfg env req s).trace = [] ∧
    (ServeHTTP cfg env req s).state = s := by
  obtain ⟨_, heq⟩ := ServeHTTP_inspected cfg env req s hcall
  rw [heq] at hcall
  obtain ⟨hu, hb, hn⟩ := afterJailCheck_inspected cfg env req s hcall
  have h500 : ¬ resp.statusCode ≥ 500 := by omega
  have h400 : ¬ resp.statusCode ≥ 400 := by omega
  have hout : ServeHTTP cfg env req s =
      { state := s,
        trace := [Event.ioReadAll, Event.httpClientDo (proxyRequest cfg req),
                  Event.nextServeHTTP req],
        returned := true } := by
    rw [heq, afterJailCheck_response cfg env req s resp hu hb hn hdo]
    simp only [if_neg h500, if_neg h400, List.append_nil]
    rfl
  rw [hout]
  refine ⟨rfl, rfl, rfl, ?_, rfl, rfl, rfl, rfl, rfl⟩
  intro r hr
  have hr2 : r = req := by simpa [backendCalls] using hr
  rw [hr2, ioReadAll_ok req.body hb]

/-- Statement C15 at a 200 answer for a request of client `x` with a body of
three bytes. -/
theorem C15_allow_verdict_delivers_witness :
    backendCalls (ServeHTTP breakerConfig (verdictEnv 0 200)
      { sampleRequest "x" with body := { unread := [1, 2, 3], failure := none } }
      State.init).trace
      = [{ sampleRequest "x" with body := { unread := [1, 2, 3], failure := none } }] ∧
    statusesWritten (ServeHTTP breakerConfig (verdictEnv 0 200)
      { sampleRequest "x" with body := { unread := [1, 2, 3], failure := none } }
      State.init).trace = [] :=
  have h := C15_allow_verdict_delivers breakerConfig (verdictEnv 0 200)
    { sampleRequest "x" with body := { unread := [1, 2, 3], failure := none } }
    State.init (sampleResponse 200) (by decide) rfl (by decide)
  ⟨h.2.2.1, h.2.2.2.2.2.1⟩

/-! ## Construction -/

theorem utf8ByteSize_eq_zero_iff (s : String) : s.utf8ByteSize = 0 ↔ s = "" := by
  cases s with
  | mk data =>
    cases data with
    | nil => exact ⟨fun _ => rfl, fun _ => rfl⟩
    | cons c cs =>
      constructor
      · intro h
        have hpos := Char.utf8Size_pos c
        simp only [String.utf8ByteSize, String.utf8ByteSize.go] at h
        omega
      · intro h
        exact absurd (congrArg String.data h) (List.cons_ne_nil c cs)

/-- Statement C16: `New` returns an error (and no handler) exactly when
`ModSecurityUrl` is the empty string, and a handler (and no error) exactly
when it is not, whatever the other fields are; the handler starts with empty
maps and a healthy breaker. -/
theorem C16_New_error_iff_empty_url (config : PluginConfig) (name : String) :
    ((∃ msg, New config name = Except.error msg) ↔ config.ModSecurityUrl = "") ∧
    ((∃ h, New config name = Except.ok h) ↔ config.ModSecurityUrl ≠ "") ∧
    (∀ h, New config name = Except.ok h →
      h.state = State.init ∧ h.config.modSecurityUrl = config.ModSecurityUrl) := by
  by_cases hurl : config.ModSecurityUrl = ""
  · have h0 : config.ModSecurityUrl.utf8ByteSize = 0 := (utf8ByteSize_eq_zero_iff _).mpr hurl
    have hnew : New config name = Except.error "modSecurityUrl cannot be empty" := by
      unfold New
      rw [if_pos h0]
    rw [hnew]
    refine ⟨⟨fun _ => hurl, fun _ => ⟨_, rfl⟩⟩, ⟨?_, fun h => absurd hurl h⟩, ?_⟩
    · rintro ⟨h, hh⟩
      exact Except.noConfusion hh
    · intro h hh
      exact Except.noConfusion hh
  · have h0 : ¬ config.ModSecurityUrl.utf8ByteSize = 0 :=
      fun h => hurl ((utf8ByteSize_eq_zero_iff _).mp h)
    unfold New
    rw [if_neg h0]
    refine ⟨⟨?_, fun h => absurd h hurl⟩, ⟨fun _ => hurl, fun _ => ⟨_, rfl⟩⟩, ?_⟩
    · rintro ⟨msg, hh⟩
      exact Except.noConfusion hh
    · intro h hh
      have heq := Except.ok.inj hh
      rw [← heq]
      exact ⟨rfl, rfl⟩

/-! ## The expiry path -/

/-- Statement C17: with jailing enabled, a request that is not an upgrade from
a client whose release timestamp exists and is not in the future never
returns and does nothing: no breaker check, no call of the inspection service
or of the backend handler, and the ledger is not touched.  When the read
lock is granted, the call is parked in `releaseFromJail` with that read hold
still in place (one more reader than before), and `Lock` is refused to every
mutex state with a reader, so the write lock can never be granted. -/
theorem C17_lapsed_check_self_deadlock (cfg : Config) (env : Env) (req : Request)
    (s : State) (r : Int)
    (hje : cfg.jailEnabled = true) (hws : isWebsocket req = false)
    (hrel : GoMap.lookup s.jailRelease req.remoteAddr = some r)
    (hge : r ≤ env.tJailCheck) :
    (ServeHTTP cfg env req s).returned = false ∧
    (ServeHTTP cfg env req s).trace = [] ∧
    inspectionCalls (ServeHTTP cfg env req s).trace = [] ∧
    backendCalls (ServeHTTP cfg env req s).trace = [] ∧
    (ServeHTTP cfg env req s).state.ledger = s.ledger ∧
    (s.jailMutex.writer = false →
      (ServeHTTP cfg env req s).state.jailMutex
        = { readers := s.jailMutex.readers + 1, writer := false } ∧
      isClientInJail env.tJailCheck req.remoteAddr
        { s with jailMutex := { readers := s.jailMutex.readers + 1, writer := false } } = none ∧
      releaseFromJail req.remoteAddr (ServeHTTP cfg env req s).state = none) ∧
    (∀ m : RWMutex, 0 < m.readers → m.Lock = none) := by
  have hlock : ∀ m : RWMutex, 0 < m.readers → m.Lock = none := by
    intro m hm
    have hr : ¬ m.readers = 0 := by omega
    simp [RWMutex.Lock, hr]
  cases hw : s.jailMutex.writer with
  | true =>
    have hout : ServeHTTP cfg env req s = { state := s, trace := [], returned := false } := by
      unfold ServeHTTP
      simp [hws, hje, RWMutex.RLock, hw]
    rw [hout]
    exact ⟨rfl, rfl, rfl, rfl, rfl, fun h => absurd h (by decide), hlock⟩
  | false =>
    rw [ServeHTTP_jailCheck_lapsed cfg env req s r hws hje hw hrel hge]
    refine ⟨rfl, rfl, rfl, rfl, rfl, fun _ => ⟨?_, ?_, ?_⟩, hlock⟩
    · simp only [hw]
    · exact isClientInJail_lapsed_readLocked env.tJailCheck req.remoteAddr _ r hrel hge
        (Nat.succ_pos _)
    · simp [releaseFromJail, RWMutex.Lock]

/-- Statement C17 for client `x` released at 35 s and asking at 40 s. -/
theorem C17_lapsed_check_self_deadlock_witness :
    (ServeHTTP (jailConfig 2 60 30) (verdictEnv 40000000000 200) (sampleRequest "x")
      jailedState).returned = false ∧
    (ServeHTTP (jailConfig 2 60 30) (verdictEnv 40000000000 200) (sampleRequest "x")
      jailedState).trace = [] ∧
    (ServeHTTP (jailConfig 2 60 30) (verdictEnv 40000000000 200) (sampleRequest "x")
      jailedState).state.jailMutex = { readers := 1, writer := false } :=
  have h := C17_lapsed_check_self_deadlock (jailConfig 2 60 30) (verdictEnv 40000000000 200)
    (sampleRequest "x") jailedState 35000000000 rfl (by decide) rfl (by decide)
  ⟨h.1, h.2.1, (h.2.2.2.2.2.1 rfl).1⟩

/-! ## Which operations remove a client -/

theorem GoMap.mem_keys_of_lookup {α : Type} (m : GoMap α) (k : String)
    (h : GoMap.lookup m k ≠ none) : k ∈ GoMap.keys m := by
  unfold GoMap.keys
  rw [List.mem_dedup]
  induction m with
  | nil => exact absurd rfl h
  | cons e rest ih =>
    obtain ⟨k1, v⟩ := e
    by_cases hk : k1 = k
    · rw [hk]; exact List.mem_cons_self _ _
    · rw [GoMap.lookup, if_neg hk] at h
      exact List.mem_cons_of_mem _ (ih h)

/-- A ledger operation for one client leaves the entries of every other
client, the breaker and the mutex as they were. -/
theorem LedgerOp.apply_other (cfg : Config) (op : LedgerOp) (s s1 : State) (c : String)
    (hother : (∃ now x, op = LedgerOp.record now x ∧ c ≠ x) ∨
      (∃ now x, op = LedgerOp.check now x ∧ c ≠ x))
    (h : op.apply cfg s = some s1) :
    GoMap.lookup s1.jail c = GoMap.lookup s.jail c ∧
    GoMap.lookup s1.jailRelease c = GoMap.lookup s.jailRelease c ∧
    s1.unhealthyWaf = s.unhealthyWaf ∧ s1.jailMutex = s.jailMutex := by
  rcases hother with ⟨now, x, hop, hne⟩ | ⟨now, x, hop, hne⟩
  · subst hop
    obtain ⟨hfr, _, _, hwaf, _, hmu⟩ := recordOffense_frame cfg now x s s1 h
    exact ⟨(hfr c hne).1, (hfr c hne).2, hwaf, hmu⟩
  · subst hop
    simp only [LedgerOp.apply, Option.map_eq_some', Prod.exists, exists_eq_right] at h
    obtain ⟨v, hv⟩ := h
    rcases isClientInJail_some now x s s1 v hv with ⟨hs, _⟩ | ⟨_, r, _, _, hj, hr, hmu, hwaf, _⟩
    · rw [hs]; exact ⟨rfl, rfl, rfl, rfl⟩
    · rw [hj, hr]
      exact ⟨GoMap.lookup_delete_ne _ x c hne, GoMap.lookup_delete_ne _ x c hne, hwaf, hmu⟩

/-- For ledger operations that return, whatever the state of `jailMutex`: the
key of client `c` leaves the offense map or the release map only through
`isClientInJail` for `c` itself at a time not before the release timestamp of
`c`; and for a client with an offense window and no release timestamp, every
run of `isClientInJail` calls (any client, any time) and of `recordOffense`
calls for other clients leaves the window of `c` as it was. -/
theorem ledgerOps_removal_and_frame (cfg : Config) (c : String) :
    (∀ op s s1, LedgerOp.apply cfg op s = some s1 →
      ((GoMap.lookup s.jail c ≠ none ∧ GoMap.lookup s1.jail c = none) ∨
        (GoMap.lookup s.jailRelease c ≠ none ∧ GoMap.lookup s1.jailRelease c = none)) →
      ∃ now r, op = LedgerOp.check now c ∧ GoMap.lookup s.jailRelease c = some r ∧ r ≤ now) ∧
    (∀ ops s s1, GoMap.lookup s.jail c ≠ none → GoMap.lookup s.jailRelease c = none →
      (∀ now, LedgerOp.record now c ∉ ops) → runLedgerOps cfg ops s = some s1 →
      GoMap.lookup s1.jail c = GoMap.lookup s.jail c ∧
      GoMap.lookup s1.jailRelease c = none ∧ c ∈ GoMap.keys s1.jail) := by
  constructor
  · intro op s s1 h hrem
    cases op with
    | record now x =>
      exfalso
      by_cases hx : c = x
      · subst hx
        obtain ⟨_, hwin, hkeep, _⟩ := recordOffense_frame cfg now c s s1 h
        rcases hrem with ⟨_, h2⟩ | ⟨h1, h2⟩
        · rw [hwin] at h2; exact Option.noConfusion h2
        · exact hkeep h1 h2
      · obtain ⟨hj, hr, _, _⟩ :=
          LedgerOp.apply_other cfg (LedgerOp.record now x) s s1 c (Or.inl ⟨now, x, rfl, hx⟩) h
        rcases hrem with ⟨h1, h2⟩ | ⟨h1, h2⟩
        · rw [hj] at h2; exact h1 h2
        · rw [hr] at h2; exact h1 h2
    | check now x =>
      by_cases hx : c = x
      · subst hx
        simp only [LedgerOp.apply, Option.map_eq_some', Prod.exists, exists_eq_right] at h
        obtain ⟨v, hv⟩ := h
        rcases isClientInJail_some now c s s1 v hv with ⟨hs, _⟩ | ⟨_, r, hrel, hge, _⟩
        · exfalso
          rw [hs] at hrem
          rcases hrem with ⟨h1, h2⟩ | ⟨h1, h2⟩ <;> exact h1 h2
        · exact ⟨now, r, rfl, hrel, hge⟩
      · exfalso
        obtain ⟨hj, hr, _, _⟩ :=
          LedgerOp.apply_other cfg (LedgerOp.check now x) s s1 c (Or.inr ⟨now, x, rfl, hx⟩) h
        rcases hrem with ⟨h1, h2⟩ | ⟨h1, h2⟩
        · rw [hj] at h2; exact h1 h2
        · rw [hr] at h2; exact h1 h2
  · intro ops
    induction ops with
    | nil =>
      intro s s1 hj hr _ hrun
      simp only [runLedgerOps, Option.some.injEq] at hrun
      subst hrun
      exact ⟨rfl, hr, GoMap.mem_keys_of_lookup _ c hj⟩
    | cons op ops ih =>
      intro s s1 hj hr hnorec hrun
      simp only [runLedgerOps] at hrun
      cases hstep : LedgerOp.apply cfg op s with
      | none => rw [hstep] at hrun; simp at hrun
      | some s2 =>
        rw [hstep] at hrun
        have hrest : ∀ now, LedgerOp.record now c ∉ ops :=
          fun now hmem => hnorec now (List.mem_cons_of_mem _ hmem)
        have hkeep : GoMap.lookup s2.jail c = GoMap.lookup s.jail c ∧
            GoMap.lookup s2.jailRelease c = GoMap.lookup s.jailRelease c := by
          cases op with
          | record now x =>
            have hx : c ≠ x := by
              intro hcx
              subst hcx
              exact hnorec now (List.mem_cons_self _ _)
            obtain ⟨h1, h2, _, _⟩ := LedgerOp.apply_other cfg (LedgerOp.record now x) s s2 c
              (Or.inl ⟨now, x, rfl, hx⟩) hstep
            exact ⟨h1, h2⟩
          | check now x =>
            by_cases hx : c = x
            · subst hx
              simp only [LedgerOp.apply, Option.map_eq_some', Prod.exists,
                exists_eq_right] at hstep
              obtain ⟨v, hv⟩ := hstep
              rw [isClientInJail_absent now c s hr] at hv
              simp only [Option.some.injEq, Prod.mk.injEq] at hv
              rw [← hv.2]
              exact ⟨rfl, rfl⟩
            · obtain ⟨h1, h2, _, _⟩ := LedgerOp.apply_other cfg (LedgerOp.check now x) s s2 c
                (Or.inr ⟨now, x, rfl, hx⟩) hstep
              exact ⟨h1, h2⟩
        have hj2 : GoMap.lookup s2.jail c ≠ none := by rw [hkeep.1]; exact hj
        have hr2 : GoMap.lookup s2.jailRelease c = none := by rw [hkeep.2]; exact hr
        obtain ⟨g1, g2, g3⟩ := ih s2 s1 hj2 hr2 hrest hrun
        exact ⟨g1.trans hkeep.1, g2, g3⟩


theorem GoMap.lookup_of_mem_keys {α : Type} (m : GoMap α) (k : String)
    (h : k ∈ m.map Prod.fst) : GoMap.lookup m k ≠ none := by
  induction m with
  | nil => simp at h
  | cons e rest ih =>
    obtain ⟨k1, v⟩ := e
    by_cases hk : k1 = k
    · rw [GoMap.lookup, if_pos hk]; exact Option.some_ne_none v
    · rw [GoMap.lookup, if_neg hk]
      simp only [List.map_cons, List.mem_cons] at h
      rcases h with h | h
      · exact absurd h.symm hk
      · exact ih h

/-- A map that binds every key of another has at least as many keys. -/
theorem GoMap.keys_length_le {α β : Type} (m : GoMap α) (m1 : GoMap β)
    (h : ∀ k, GoMap.lookup m k ≠ none → GoMap.lookup m1 k ≠ none) :
    (GoMap.keys m).length ≤ (GoMap.keys m1).length := by
  unfold GoMap.keys
  rw [← List.card_toFinset, ← List.card_toFinset]
  apply Finset.card_le_card
  intro k hk
  rw [List.mem_toFinset] at hk ⊢
  have h1 := GoMap.mem_keys_of_lookup m1 k (h k (GoMap.lookup_of_mem_keys m k hk))
  unfold GoMap.keys at h1
  exact List.mem_dedup.mp h1

/-- Under the read lock of its caller `isClientInJail` changes nothing: the
jail check returns with the state it found, or does not return. -/
theorem jailCheck_some (now : Int) (c : String) (s s1 : State) (v : Bool)
    (h : jailCheck now c s = some (v, s1)) : s1 = s := by
  unfold jailCheck at h
  cases hw : s.jailMutex.writer with
  | true => simp [RWMutex.RLock, hw] at h
  | false =>
    have hrl : s.jailMutex.RLock
        = some { readers := s.jailMutex.readers + 1, writer := s.jailMutex.writer } := by
      simp [RWMutex.RLock, hw]
    rw [hrl] at h
    simp only at h
    cases hl : GoMap.lookup s.jailRelease c with
    | none =>
      have habs := isClientInJail_absent now c
        { s with jailMutex :=
            { readers := s.jailMutex.readers + 1, writer := s.jailMutex.writer } } hl
      rw [habs] at h
      simp only [Option.some.injEq, Prod.mk.injEq] at h
      rw [← h.2]
      exact readHeld_RUnlock s
    | some r =>
      by_cases hlt : now < r
      · have hban := isClientInJail_banned now c
          { s with jailMutex :=
              { readers := s.jailMutex.readers + 1, writer := s.jailMutex.writer } } r hl hlt
        rw [hban] at h
        simp only [Option.some.injEq, Prod.mk.injEq] at h
        rw [← h.2]
        exact readHeld_RUnlock s
      · have hpark := isClientInJail_lapsed_readLocked now c
          { s with jailMutex :=
              { readers := s.jailMutex.readers + 1, writer := s.jailMutex.writer } } r hl
          (by omega) (Nat.succ_pos _)
        rw [hpark] at h
        simp at h

/-- In `ServeHTTP`, for a request that is not an upgrade and with jailing
enabled, the outcome is decided by `jailCheck`: no return when it does not
return, the ban response when it returns true, and the rest of `ServeHTTP`
when it returns false. -/
theorem ServeHTTP_jailCheck (cfg : Config) (env : Env) (req : Request) (s : State)
    (hws : isWebsocket req = false) (hje : cfg.jailEnabled = true) :
    (jailCheck env.tJailCheck req.remoteAddr s = none →
      (ServeHTTP cfg env req s).returned = false ∧ (ServeHTTP cfg env req s).trace = []) ∧
    (∀ s1, jailCheck env.tJailCheck req.remoteAddr s = some (true, s1) →
      ServeHTTP cfg env req s =
        { state := s1.logPrintf ("client " ++ req.remoteAddr ++ " is jailed"),
          trace := httpError "Too Many Requests" StatusTooManyRequests,
          returned := true }) ∧
    (∀ s1, jailCheck env.tJailCheck req.remoteAddr s = some (false, s1) →
      ServeHTTP cfg env req s = ServeHTTP.afterJailCheck cfg env req s1) := by
  unfold ServeHTTP jailCheck
  simp only [hws, hje, Bool.false_eq_true, if_false, if_true]
  cases s.jailMutex.RLock with
  | none => simp
  | some m =>
    simp only
    cases isClientInJail env.tJailCheck req.remoteAddr { s with jailMutex := m } with
    | none => simp
    | some p =>
      obtain ⟨v, s2⟩ := p
      cases v <;> simp

/-- An operation as `ServeHTTP` performs it removes no key of the offense map
and changes the window of a client only by `recordOffense` for that client. -/
theorem LedgerOp.call_keeps (cfg : Config) (op : LedgerOp) (s s1 : State)
    (h : op.call cfg s = some s1) :
    (∀ k, GoMap.lookup s.jail k ≠ none → GoMap.lookup s1.jail k ≠ none) ∧
    (∀ k, GoMap.lookup s.jailRelease k ≠ none → GoMap.lookup s1.jailRelease k ≠ none) ∧
    (∀ c, (∀ now, op ≠ LedgerOp.record now c) →
      GoMap.lookup s1.jail c = GoMap.lookup s.jail c ∧
      GoMap.lookup s1.jailRelease c = GoMap.lookup s.jailRelease c) := by
  cases op with
  | record now x =>
    simp only [LedgerOp.call] at h
    obtain ⟨hfr, hwin, hkeep, _⟩ := recordOffense_frame cfg now x s s1 h
    refine ⟨?_, ?_, ?_⟩
    · intro k hk
      by_cases hkx : k = x
      · rw [hkx, hwin]; exact Option.some_ne_none _
      · rw [(hfr k hkx).1]; exact hk
    · intro k hk
      by_cases hkx : k = x
      · rw [hkx] at hk ⊢; exact hkeep hk
      · rw [(hfr k hkx).2]; exact hk
    · intro c hc
      have hcx : c ≠ x := by
        intro hcx
        exact hc now (by rw [hcx])
      exact hfr c hcx
  | check now x =>
    simp only [LedgerOp.call, Option.map_eq_some', Prod.exists, exists_eq_right] at h
    obtain ⟨v, hv⟩ := h
    have hs := jailCheck_some now x s s1 v hv
    rw [hs]
    exact ⟨fun _ hk => hk, fun _ hk => hk, fun _ _ => ⟨rfl, rfl⟩⟩

/-- Statement C18.  Whatever the state of `jailMutex`, a ledger operation that
returns removes the key of client `c` from the offense map or from the release
map only if it is `isClientInJail` for `c` itself at a time not before the
release timestamp of `c`.  In particular, for a client with an offense window
and no release timestamp, every run of `isClientInJail` calls (any client, any
time) and of `recordOffense` calls for other clients, as functions and as
`ServeHTTP` performs them, leaves the window of `c` as it was and `c` among the
keys of the offense map; and through the operations as `ServeHTTP` performs
them (`isClientInJail` under its read lock, where the lapsed check never gets
to delete) no key is removed and the number of keys of the offense map never
decreases. -/
theorem C18_only_own_lapsed_check_removes (cfg : Config) (c : String) :
    (∀ op s s1, LedgerOp.apply cfg op s = some s1 →
      ((GoMap.lookup s.jail c ≠ none ∧ GoMap.lookup s1.jail c = none) ∨
        (GoMap.lookup s.jailRelease c ≠ none ∧ GoMap.lookup s1.jailRelease c = none)) →
      ∃ now r, op = LedgerOp.check now c ∧ GoMap.lookup s.jailRelease c = some r ∧ r ≤ now) ∧
    (∀ ops s s1, GoMap.lookup s.jail c ≠ none → GoMap.lookup s.jailRelease c = none →
      (∀ now, LedgerOp.record now c ∉ ops) → runLedgerOps cfg ops s = some s1 →
      GoMap.lookup s1.jail c = GoMap.lookup s.jail c ∧
      GoMap.lookup s1.jailRelease c = none ∧ c ∈ GoMap.keys s1.jail) ∧
    (∀ ops s s1, GoMap.lookup s.jail c ≠ none → GoMap.lookup s.jailRelease c = none →
      (∀ now, LedgerOp.record now c ∉ ops) → runCalls cfg ops s = some s1 →
      GoMap.lookup s1.jail c = GoMap.lookup s.jail c ∧
      GoMap.lookup s1.jailRelease c = none ∧ c ∈ GoMap.keys s1.jail) ∧
    (∀ ops s s1, runCalls cfg ops s = some s1 →
      (∀ k, GoMap.lookup s.jail k ≠ none → GoMap.lookup s1.jail k ≠ none) ∧
      (GoMap.keys s.jail).length ≤ (GoMap.keys s1.jail).length) := by
  refine ⟨(ledgerOps_removal_and_frame cfg c).1, (ledgerOps_removal_and_frame cfg c).2, ?_, ?_⟩
  · intro ops
    induction ops with
    | nil =>
      intro s s1 hj hr _ hrun
      simp only [runCalls, Option.some.injEq] at hrun
      subst hrun
      exact ⟨rfl, hr, GoMap.mem_keys_of_lookup _ c hj⟩
    | cons op ops ih =>
      intro s s1 hj hr hnorec hrun
      simp only [runCalls] at hrun
      cases hstep : LedgerOp.call cfg op s with
      | none => rw [hstep] at hrun; simp at hrun
      | some s2 =>
        rw [hstep] at hrun
        have hop : ∀ now, op ≠ LedgerOp.record now c := by
          intro now hop
          exact hnorec now (by rw [hop]; exact List.mem_cons_self _ _)
        have hrest : ∀ now, LedgerOp.record now c ∉ ops :=
          fun now hmem => hnorec now (List.mem_cons_of_mem _ hmem)
        obtain ⟨h1, h2⟩ := (LedgerOp.call_keeps cfg op s s2 hstep).2.2 c hop
        have hj2 : GoMap.lookup s2.jail c ≠ none := by rw [h1]; exact hj
        have hr2 : GoMap.lookup s2.jailRelease c = none := by rw [h2]; exact hr
        obtain ⟨g1, g2, g3⟩ := ih s2 s1 hj2 hr2 hrest hrun
        exact ⟨g1.trans h1, g2, g3⟩
  · intro ops s s1 hrun
    have hkeys : ∀ k, GoMap.lookup s.jail k ≠ none → GoMap.lookup s1.jail k ≠ none := by
      induction ops generalizing s with
      | nil =>
        simp only [runCalls, Option.some.injEq] at hrun
        subst hrun
        exact fun _ hk => hk
      | cons op ops ih =>
        simp only [runCalls] at hrun
        cases hstep : LedgerOp.call cfg op s with
        | none => rw [hstep] at hrun; simp at hrun
        | some s2 =>
          rw [hstep] at hrun
          intro k hk
          exact ih s2 hrun k ((LedgerOp.call_keeps cfg op s s2 hstep).1 k hk)
    exact ⟨hkeys, GoMap.keys_length_le _ _ hkeys⟩

/-- Statement C18 on `twoClientState` (client `c`: window `[0 s]`, no release
timestamp; client `d`: release at 35 s), as `ServeHTTP` performs the
operations: after the check of `d` at 20 s, an offense of `d` at 21 s and the
check of `c` at 700 s the window of `c` is still `[0 s]` and the offense map has
no fewer keys than the two it had; the check of `d` at 40 s, after its release
time, does not return and so deletes nothing. -/
theorem C18_only_own_lapsed_check_removes_witness :
    (∃ s1, runCalls (jailConfig 2 60 30)
        [LedgerOp.check 20000000000 "d", LedgerOp.record 21000000000 "d",
         LedgerOp.check 700000000000 "c"] twoClientState = some s1 ∧
      GoMap.lookup s1.jail "c" = some [0] ∧
      (GoMap.keys twoClientState.jail).length = 2 ∧
      (GoMap.keys twoClientState.jail).length ≤ (GoMap.keys s1.jail).length) ∧
    LedgerOp.call (jailConfig 2 60 30) (LedgerOp.check 40000000000 "d") twoClientState
      = none := by
  refine ⟨⟨_, rfl, ?_, by decide, ?_⟩, by decide⟩
  · exact ((C18_only_own_lapsed_check_removes (jailConfig 2 60 30) "c").2.2.1
      [LedgerOp.check 20000000000 "d", LedgerOp.record 21000000000 "d",
       LedgerOp.check 700000000000 "c"] twoClientState _ (by decide) rfl
      (by intro now hmem; simp at hmem) rfl).1
  · exact ((C18_only_own_lapsed_check_removes (jailConfig 2 60 30) "c").2.2.2
      [LedgerOp.check 20000000000 "d", LedgerOp.record 21000000000 "d",
       LedgerOp.check 700000000000 "c"] twoClientState _ rfl).2

/-! ## The upgrade test -/

theorem isWebsocket_iff (req : Request) :
    isWebsocket req = true ↔ "websocket" ∈ GoMap.index req.header "Upgrade" := by
  unfold isWebsocket
  rw [List.any_eq_true]
  constructor
  · rintro ⟨x, hx, hd⟩
    have hxe : x = "websocket" := by simpa using hd
    rw [← hxe]; exact hx
  · intro h
    exact ⟨"websocket", h, by simp⟩

/-- Statement C19: `isWebsocket` is true exactly when one of the values under
the header key `Upgrade` is the string `websocket`; it is false for the single
values `WebSocket`, `Websocket` and `websocket, h2c` and without the header.
A request for which it is false goes through the jail check (429 for a banned
client), the breaker check (straight to the backend when unhealthy) and the
inspection (the inspection service is called when the breaker is healthy). -/
theorem C19_isWebsocket_exact_match (cfg : Config) (env : Env) (req : Request) (s : State) :
    (isWebsocket req = true ↔ "websocket" ∈ GoMap.index req.header "Upgrade") ∧
    isWebsocket (upgradeRequest req.remoteAddr ["WebSocket"]) = false ∧
    isWebsocket (upgradeRequest req.remoteAddr ["Websocket"]) = false ∧
    isWebsocket (upgradeRequest req.remoteAddr ["websocket, h2c"]) = false ∧
    isWebsocket (sampleRequest req.remoteAddr) = false ∧
    ("websocket" ∉ GoMap.index req.header "Upgrade" →
      (∀ r, cfg.jailEnabled = true → s.jailMutex.writer = false →
        GoMap.lookup s.jailRelease req.remoteAddr = some r → env.tJailCheck < r →
        statusesWritten (ServeHTTP cfg env req s).trace = [429] ∧
        backendCalls (ServeHTTP cfg env req s).trace = []) ∧
      ((cfg.jailEnabled = false ∨
          (s.jailMutex.writer = false ∧ GoMap.lookup s.jailRelease req.remoteAddr = none)) →
        (s.unhealthyWaf = true →
          ServeHTTP cfg env req s
            = { state := s, trace := [Event.nextServeHTTP req], returned := true }) ∧
        (s.unhealthyWaf = false → req.body.failure = none → env.newRequestErr = none →
          inspectionCalls (ServeHTTP cfg env req s).trace ≠ []))) := by
  refine ⟨isWebsocket_iff req, rfl, rfl, rfl, rfl, ?_⟩
  intro hno
  have hws : isWebsocket req = false := by
    cases h : isWebsocket req with
    | false => rfl
    | true => exact absurd ((isWebsocket_iff req).mp h) hno
  refine ⟨?_, ?_⟩
  · intro r hje hw hrel hlt
    rw [ServeHTTP_jailCheck_banned cfg env req s r hws hje hw hrel hlt]
    exact ⟨rfl, rfl⟩
  · intro hpass
    refine ⟨?_, ?_⟩
    · intro hu
      exact ServeHTTP_unhealthy_bypass cfg env req s hu (Or.inr hpass)
    · intro hu hb hn
      exact ServeHTTP_calls_inspection cfg env req s hws hpass hu hb hn

/-- Statement C19 for the header value `WebSocket`: the request of banned
client `x` gets the 429 response, and with jailing off it is sent to the
inspection service. -/
theorem C19_isWebsocket_exact_match_witness :
    statusesWritten (ServeHTTP (jailConfig 2 60 30) (verdictEnv 20000000000 200)
      (upgradeRequest "x" ["WebSocket"]) jailedState).trace = [429] ∧
    inspectionCalls (ServeHTTP breakerConfig (verdictEnv 20000000000 200)
      (upgradeRequest "x" ["WebSocket"]) jailedState).trace ≠ [] :=
  have h1 := (C19_isWebsocket_exact_match (jailConfig 2 60 30) (verdictEnv 20000000000 200)
    (upgradeRequest "x" ["WebSocket"]) jailedState).2.2.2.2.2 (by decide)
  have h2 := (C19_isWebsocket_exact_match breakerConfig (verdictEnv 20000000000 200)
    (upgradeRequest "x" ["WebSocket"]) jailedState).2.2.2.2.2 (by decide)
  ⟨(h1.1 35000000000 rfl rfl rfl (by decide)).1, (h2.2 (Or.inl rfl)).2 rfl rfl rfl⟩

/-! ## Client isolation -/

/-- The verdict of the jail check for a client depends only on the release
timestamp of that client and on the mutex. -/
theorem jailVerdict_congr (t : Int) (d : String) (s s1 : State)
    (hm : s1.jailMutex = s.jailMutex)
    (hr : GoMap.lookup s1.jailRelease d = GoMap.lookup s.jailRelease d) :
    jailVerdict t d s1 = jailVerdict t d s := by
  unfold jailVerdict isClientInJail
  rw [hr]
  cases GoMap.lookup s.jailRelease d with
  | none => rfl
  | some r =>
    by_cases hb : Time.Before t r = true
    · simp only [hb, if_true, Option.map_some']
    · simp only [hb, Bool.false_eq_true, if_false, releaseFromJail, hm]
      cases s.jailMutex.Lock <;> rfl

/-- Statement C20: for distinct clients `c` and `d`, a `recordOffense` call
and an `isClientInJail` call for `c` that return leave the offense window and
the release timestamp of `d` as they were, absent if they were absent, and
leave the breaker flag as it was; so the verdict of the jail check for `d`, at
any time, is the same before and after. -/
theorem C20_client_isolation (cfg : Config) (now : Int) (c d : String) (s : State)
    (hne : d ≠ c) :
    (∀ s1, recordOffense cfg now c s = some s1 →
      GoMap.lookup s1.jail d = GoMap.lookup s.jail d ∧
      GoMap.lookup s1.jailRelease d = GoMap.lookup s.jailRelease d ∧
      s1.unhealthyWaf = s.unhealthyWaf ∧
      ∀ t, jailVerdict t d s1 = jailVerdict t d s) ∧
    (∀ v s1, isClientInJail now c s = some (v, s1) →
      GoMap.lookup s1.jail d = GoMap.lookup s.jail d ∧
      GoMap.lookup s1.jailRelease d = GoMap.lookup s.jailRelease d ∧
      s1.unhealthyWaf = s.unhealthyWaf ∧
      ∀ t, jailVerdict t d s1 = jailVerdict t d s) := by
  constructor
  · intro s1 h
    obtain ⟨hj, hr, hw, hm⟩ := LedgerOp.apply_other cfg (LedgerOp.record now c) s s1 d
      (Or.inl ⟨now, c, rfl, hne⟩) h
    exact ⟨hj, hr, hw, fun t => jailVerdict_congr t d s s1 hm hr⟩
  · intro v s1 h
    have happ : LedgerOp.apply cfg (LedgerOp.check now c) s = some s1 := by
      simp only [LedgerOp.apply, h, Option.map_some']
    obtain ⟨hj, hr, hw, hm⟩ := LedgerOp.apply_other cfg (LedgerOp.check now c) s s1 d
      (Or.inr ⟨now, c, rfl, hne⟩) happ
    exact ⟨hj, hr, hw, fun t => jailVerdict_congr t d s s1 hm hr⟩

/-- Statement C20 on `twoClientState`: the offense of `c` at 1 s and the check
of `d` at 40 s (which evicts `d`) leave the other client as it was. -/
theorem C20_client_isolation_witness :
    (∀ s1, recordOffense (jailConfig 2 60 30) 1000000000 "c" twoClientState = some s1 →
      GoMap.lookup s1.jailRelease "d" = some 35000000000) ∧
    (∀ v s1, isClientInJail 40000000000 "d" twoClientState = some (v, s1) →
      GoMap.lookup s1.jail "c" = some [0]) :=
  ⟨fun s1 h =>
      ((C20_client_isolation (jailConfig 2 60 30) 1000000000 "c" "d" twoClientState
        (by decide)).1 s1 h).2.1,
    fun v s1 h =>
      ((C20_client_isolation (jailConfig 2 60 30) 40000000000 "d" "c" twoClientState
        (by decide)).2 v s1 h).1⟩

end Modsecurity
